import Mathlib

/-!
# Verification of the site/pinterest image crawler

A shallow embedding of the crawler's source (`src/crawler.js`,
`src/pinterest-driver.js`, `src/server.js`) in Lean 4, together with proofs
of the specified properties.

JavaScript strings are modelled as `List Char` (`JStr`): Lean's built-in
`String` primitives are not kernel-reducible, while list functions are, so
every definition here is executable by `decide`.  External collaborators
(HTTP transport, the WHATWG `URL` parser, `cheerio`, `image-size`, `sharp`,
`playwright`'s DOM, the filesystem, `crypto.sha1`) are supplied as explicit
environment records of functions; everything the repository's own code does
with their results is embedded faithfully from the source.
-/

/-- JavaScript strings, modelled as lists of characters. -/
abbrev JStr := List Char

/-- Coerce a Lean string literal to a `JStr`. -/
def jstr (s : String) : JStr := s.toList

/-- JS `String.prototype.toLowerCase` (ASCII range, which is all the code uses). -/
def jsToLower (s : JStr) : JStr := s.map Char.toLower

/-- JS `a.startsWith(b)`. -/
def jsStartsWith (s pre : JStr) : Bool := pre.isPrefixOf s

/-- JS `a.includes(b)` (substring containment). -/
def jsIncludes (s sub : JStr) : Bool := s.tails.any (fun t => sub.isPrefixOf t)

/-- JS `String.prototype.trim`. -/
def jsTrim (s : JStr) : JStr :=
  ((s.dropWhile Char.isWhitespace).reverse.dropWhile Char.isWhitespace).reverse

/-- JS `s.split(c)` for a single-character separator. -/
def jsSplitOnChar (c : Char) : JStr → List JStr
  | [] => [[]]
  | x :: rest =>
    let r := jsSplitOnChar c rest
    if x = c then [] :: r
    else match r with
      | [] => [[x]]
      | h :: t => (x :: h) :: t

/-- Decimal digits of a natural number, as characters (JS template `${n}`).
Fuel-based so the kernel can evaluate it. -/
def natCharsAux : Nat → Nat → JStr
  | 0, _ => []
  | fuel + 1, n =>
    if n < 10 then [Char.ofNat (48 + n)]
    else natCharsAux fuel (n / 10) ++ [Char.ofNat (48 + n % 10)]

/-- JS number-to-string for naturals. -/
def natChars (n : Nat) : JStr := natCharsAux (n + 1) n

/-- Value of a list of decimal digit characters (JS `Number` on a digit string). -/
def digitsToNat (s : JStr) : Nat := s.foldl (fun acc c => 10 * acc + (c.toNat - 48)) 0

/-- JS `Math.round(a / b)` for integers with `b > 0`:
`Math.round x = ⌊x + 1/2⌋`, and `⌊a/b + 1/2⌋ = ⌊(2a+b)/(2b)⌋`. -/
def jsRoundDiv (a b : Int) : Int := Int.fdiv (2 * a + b) (2 * b)

/-- Append an element to a list unless already present: the observable
behaviour of JS `Set.prototype.add` (sets iterate in insertion order). -/
def insertIfAbsent {α : Type} [DecidableEq α] (l : List α) (a : α) : List α :=
  if a ∈ l then l else l ++ [a]

/-- A parsed URL, as decomposed by the WHATWG `URL` class: the components the
source reads and writes (`protocol` keeps its trailing `:`, `hash` its
leading `#` when nonempty). -/
structure Url where
  protocol : JStr
  host : JStr
  pathname : JStr
  search : JStr
  hash : JStr
deriving DecidableEq, Repr

/-- `url.origin`: scheme and host. -/
def urlOrigin (u : Url) : JStr := u.protocol ++ jstr "//" ++ u.host

/-- `url.href`: the serialized URL. -/
def urlHref (u : Url) : JStr := urlOrigin u ++ u.pathname ++ u.search ++ u.hash

/-! ## Image ingestor (`src/crawler.js`)

Embeds `normalizeQuality`, `sanitizeFilename`, `extensionFromContentType`,
`extensionFromImageType`, `filenameFromUrl`, `fetchImage`, `recompressImage`
and `downloadImages`.  Byte buffers are `List Nat`; the transport, the
`image-size` decoder, the `sharp` encoders, `fs.writeFile`, the URL parser
and SHA-1 are environment functions.  An environment function returning
`none` models that external call throwing (caught by the source's
`try`/`catch`). -/

abbrev Bytes := List Nat

/-- `normalizeQuality` (crawler.js:55) restricted to numeric inputs: clamp to
`[1, 100]` (`Math.round` of an integer is itself; the `Number()` coercion and
`NaN` fallback concern non-numeric CLI input, outside these claims). -/
def normalizeQuality (q : Int) : Int := max 1 (min 100 q)

/-- Characters kept by `sanitizeFilename` (crawler.js:71): `[a-zA-Z0-9._-]`. -/
def isSafeFilenameChar (c : Char) : Bool :=
  c.isAlphanum || c = '.' || c = '_' || c = '-'

/-- `sanitizeFilename` (crawler.js:71): replace every disallowed character by
`_` and truncate to 180 characters. -/
def sanitizeFilename (name : JStr) : JStr :=
  (name.map (fun c => if isSafeFilenameChar c then c else '_')).take 180

/-- The content-type → extension table of `extensionFromContentType`
(crawler.js:75). -/
def contentTypeExtTable : List (JStr × JStr) :=
  [ (jstr "image/jpeg", jstr ".jpg"), (jstr "image/png", jstr ".png"),
    (jstr "image/webp", jstr ".webp"), (jstr "image/gif", jstr ".gif"),
    (jstr "image/svg+xml", jstr ".svg"), (jstr "image/bmp", jstr ".bmp"),
    (jstr "image/tiff", jstr ".tiff"), (jstr "image/avif", jstr ".avif") ]

/-- `extensionFromContentType` (crawler.js:75): strip any `;`-parameters,
trim, lowercase, look up; `''` when unknown. -/
def extensionFromContentType (contentType : JStr) : JStr :=
  let clean := jsToLower (jsTrim ((jsSplitOnChar ';' contentType).headD []))
  ((contentTypeExtTable.find? (fun p => p.1 = clean)).map Prod.snd).getD []

/-- The type-tag → extension table of `extensionFromImageType` (crawler.js:90). -/
def imageTypeExtTable : List (JStr × JStr) :=
  [ (jstr "jpg", jstr ".jpg"), (jstr "jpeg", jstr ".jpg"),
    (jstr "png", jstr ".png"), (jstr "webp", jstr ".webp"),
    (jstr "gif", jstr ".gif"), (jstr "svg", jstr ".svg"),
    (jstr "bmp", jstr ".bmp"), (jstr "tiff", jstr ".tiff"),
    (jstr "avif", jstr ".avif") ]

/-- `extensionFromImageType` (crawler.js:90): `String(type || '')`
lowercased, then the table; `''` when unknown. -/
def extensionFromImageType (type? : Option JStr) : JStr :=
  let t := jsToLower (type?.getD [])
  ((imageTypeExtTable.find? (fun p => p.1 = t)).map Prod.snd).getD []

/-- Node `path.posix.basename` (no suffix argument): drop trailing `/`s, then
take the segment after the last remaining `/`. -/
def jsBasename (p : JStr) : JStr :=
  (((p.reverse.dropWhile (· = '/')).takeWhile (· ≠ '/')).reverse)

/-- The regex `/\.[a-zA-Z0-9]{2,6}$/i` of crawler.js:108: a dot followed by
2–6 alphanumerics at the end of the string.  Returns the string with that
suffix removed, or unchanged when it does not match. -/
def stripOneExtension (s : JStr) : JStr :=
  let rev := s.reverse
  let run := rev.takeWhile Char.isAlphanum
  if 2 ≤ run.length ∧ run.length ≤ 6 ∧ rev.get? run.length = some '.' then
    s.take (s.length - run.length - 1)
  else s

/-- `filenameFromUrl` (crawler.js:105), over an already-parsed URL (the
source's `new URL(imageUrl)`; an unparseable URL throws and is handled at
the call site).  `sha1hex` is the `crypto` SHA-1 hex digest. -/
def filenameFromUrl (sha1hex : JStr → JStr) (u : Url) (imageType? : Option JStr)
    (contentType : JStr) (width height : Nat) : JStr :=
  let baseName := let b := jsBasename u.pathname; if b = [] then jstr "image" else b
  let baseNoExt := let b := stripOneExtension baseName; if b = [] then jstr "image" else b
  let safeBase := sanitizeFilename baseNoExt
  let ext :=
    let e1 := extensionFromImageType imageType?
    if e1 ≠ [] then e1
    else
      let e2 := extensionFromContentType contentType
      if e2 ≠ [] then e2 else jstr ".img"
  let hash := (sha1hex (urlHref u)).take 10
  let sizeTag := natChars width ++ jstr "x" ++ natChars height
  hash ++ jstr "-" ++ sizeTag ++ jstr "-" ++ safeBase ++ ext

/-- `path.join(dir, name)` for a separator-free `name` (the only way the
source calls it on the ingest path). -/
def joinPath (dir name : JStr) : JStr := dir ++ jstr "/" ++ name

/-- An HTTP response as the `got` client returns it (`res.headers
['content-type'] || ''` folded into `contentType`). -/
structure TransportResp where
  statusCode : Nat
  contentType : JStr
  body : Bytes
deriving DecidableEq, Repr

/-- What `image-size` reports: `width`/`height` with `0` standing for both
`undefined` and `0` (both falsy in the source's checks), and the optional
format tag `type`. -/
structure SizeInfo where
  width : Nat
  height : Nat
  type : Option JStr
deriving DecidableEq, Repr

/-- The external collaborators of the ingest pipeline.  `none`/`false`
results model the corresponding call throwing. -/
structure IngestEnv where
  transport : JStr → Option TransportResp
  decodeSize : Bytes → Option SizeInfo
  sharpEncode : Bytes → JStr → Int → Option Bytes
  writeFile : JStr → Bytes → Bool
  parseUrl : JStr → Option Url
  sha1hex : JStr → JStr

/-- `fetchImage` (crawler.js:221).  Outer `none` = the transport threw;
`some none` = the source returned `null` (bad status or non-image
content-type); `some (some _)` = the lowercased content-type and body. -/
def fetchImage (env : IngestEnv) (imageUrl : JStr) : Option (Option (JStr × Bytes)) :=
  match env.transport imageUrl with
  | none => none
  | some res =>
    if res.statusCode < 200 ∨ 400 ≤ res.statusCode then some none
    else
      let ct := jsToLower res.contentType
      if ¬ jsStartsWith ct (jstr "image/") then some none
      else some (some (ct, res.body))

/-- The recompressible format set of `recompressImage` (crawler.js:240). -/
def recompressibleTypes : List JStr :=
  [jstr "jpg", jstr "jpeg", jstr "png", jstr "webp", jstr "avif", jstr "tiff"]

/-- `recompressImage` (crawler.js:238).  Formats outside the recompressible
set pass through unmodified; for the rest the `sharp` pipeline (an
environment function taking the buffer, the lowercased type and the
normalized quality) either yields the re-encoded buffer or throws (`none`). -/
def recompressImage (env : IngestEnv) (buffer : Bytes) (imageType? : Option JStr)
    (quality : Int) : Option (Bytes × Bool) :=
  let type := jsToLower (imageType?.getD [])
  if type ∉ recompressibleTypes then some (buffer, false)
  else
    match env.sharpEncode buffer type (normalizeQuality quality) with
    | none => none
    | some out => some (out, true)

/-- How one candidate ended: the three counters of `downloadImages`. -/
inductive OutcomeKind | saved | skippedSmall | failed
deriving DecidableEq, Repr

/-- A file written to the content store, tagged with the candidate location
it came from. -/
structure WriteEvent where
  url : JStr
  filename : JStr
  path : JStr
deriving DecidableEq, Repr

/-- The effect of processing one candidate in the loop body of
`downloadImages` (crawler.js:285–316). -/
structure OneResult where
  kind : OutcomeKind
  dRecompressed : Nat
  dBytesBefore : Nat
  dBytesAfter : Nat
  writes : List WriteEvent
deriving DecidableEq, Repr

/-- The body of the per-candidate loop of `downloadImages` (crawler.js:285),
after the dedup check.  Every external throw is caught by the source's
`catch` and counted as failed, keeping whatever counters were already
incremented (the source adds `bytesBefore` before recompressing and
`bytesAfter`/`imagesRecompressed` before writing). -/
def processOne (env : IngestEnv) (outputDir : JStr) (minWidth : Nat) (quality : Int)
    (imageUrl : JStr) : OneResult :=
  match fetchImage env imageUrl with
  | none => ⟨.failed, 0, 0, 0, []⟩                      -- transport threw: "IMG error"
  | some none => ⟨.failed, 0, 0, 0, []⟩                 -- "IMG failed_non_image_or_status"
  | some (some (ct, buffer)) =>
    match env.decodeSize buffer with
    | none => ⟨.failed, 0, 0, 0, []⟩                    -- image-size threw: "IMG error"
    | some size =>
      if size.width = 0 ∨ size.width < minWidth then
        ⟨.skippedSmall, 0, 0, 0, []⟩                    -- "IMG skipped_small"
      else
        let bb := buffer.length
        match recompressImage env buffer size.type quality with
        | none => ⟨.failed, 0, bb, 0, []⟩               -- sharp threw: "IMG error"
        | some (outBuf, rec) =>
          let recN := if rec then 1 else 0
          let ba := outBuf.length
          match env.parseUrl imageUrl with
          | none => ⟨.failed, recN, bb, ba, []⟩         -- new URL threw: "IMG error"
          | some u =>
            let fname := filenameFromUrl env.sha1hex u size.type ct size.width size.height
            let fpath := joinPath outputDir fname
            if env.writeFile fpath outBuf then
              ⟨.saved, recN, bb, ba, [⟨imageUrl, fname, fpath⟩]⟩   -- "IMG saved"
            else
              ⟨.failed, recN, bb, ba, []⟩               -- fs.writeFile threw: "IMG error"

/-- The `stats` record of `downloadImages` (crawler.js:269). -/
structure DlStats where
  imagesFound : Nat
  imagesSaved : Nat
  imagesSkippedSmall : Nat
  imagesFailed : Nat
  imagesRecompressed : Nat
  bytesBefore : Nat
  bytesAfter : Nat
deriving DecidableEq, Repr

/-- The loop state of `downloadImages`: the `downloadedImages` set (in
insertion order, which is exactly the list of candidates actually
processed), the counters, and every file written so far. -/
structure DlState where
  seen : List JStr
  stats : DlStats
  writes : List WriteEvent
deriving DecidableEq, Repr

/-- Fold one `OneResult` into the counters. -/
def applyOutcome (s : DlStats) (r : OneResult) : DlStats :=
  { s with
    imagesSaved := s.imagesSaved + (if r.kind = .saved then 1 else 0)
    imagesSkippedSmall := s.imagesSkippedSmall + (if r.kind = .skippedSmall then 1 else 0)
    imagesFailed := s.imagesFailed + (if r.kind = .failed then 1 else 0)
    imagesRecompressed := s.imagesRecompressed + r.dRecompressed
    bytesBefore := s.bytesBefore + r.dBytesBefore
    bytesAfter := s.bytesAfter + r.dBytesAfter }

/-- One iteration of the `for (const imageUrl of imageUrls)` loop
(crawler.js:279): skip exact duplicates, otherwise record the candidate as
seen and apply its outcome. -/
def dlStep (env : IngestEnv) (outputDir : JStr) (minWidth : Nat) (quality : Int)
    (st : DlState) (imageUrl : JStr) : DlState :=
  if imageUrl ∈ st.seen then st
  else
    let r := processOne env outputDir minWidth quality imageUrl
    { seen := st.seen ++ [imageUrl]
      stats := applyOutcome st.stats r
      writes := st.writes ++ r.writes }

/-- `downloadImages` (crawler.js:267). -/
def downloadImages (env : IngestEnv) (outputDir : JStr) (imageUrls : List JStr)
    (minWidth : Nat) (quality : Int) : DlState :=
  imageUrls.foldl (dlStep env outputDir minWidth quality)
    { seen := []
      stats := ⟨imageUrls.length, 0, 0, 0, 0, 0, 0⟩
      writes := [] }

/-- The filename a successful ingest of `imageUrl` would store it under:
determined by the environment (remote content) and the location alone. -/
def savedFilename (env : IngestEnv) (imageUrl : JStr) : Option JStr :=
  match fetchImage env imageUrl with
  | some (some (ct, buffer)) =>
    match env.decodeSize buffer with
    | some size =>
      match env.parseUrl imageUrl with
      | some u => some (filenameFromUrl env.sha1hex u size.type ct size.width size.height)
      | none => none
    | none => none
  | _ => none

/-! ## Site crawler (`src/crawler.js`, `run` site branch)

Embeds `extractImageUrls`, `extractLinks` and the breadth-first loop of
`run` (crawler.js:390–431).  A fetched page is modelled by its content-type
and its parsed document; the document carries, per `<img>` and per
`<a href>`, the result the source obtains from `normalizeUrl(attr, pageUrl)`
(`none` = missing attribute or unresolvable against the page URL — both make
the source skip the element).  The checks the source then performs on those
resolved URLs (the `data:` filter, the protocol and origin restrictions, the
fragment strip, deduplication) are embedded below. -/

/-- A parsed HTML document, reduced to what the crawler reads from it. -/
structure PageDoc where
  imgSrcs : List (Option Url)
  anchorHrefs : List (Option Url)

/-- A page response: its `content-type` header and parsed body. -/
structure PageResp where
  contentType : JStr
  doc : PageDoc

/-- External collaborators of the site crawl: the HTTP client (`none` = the
request threw). -/
structure SiteEnv where
  transport : Url → Option PageResp

/-- `fetchHtml` (crawler.js:212): `none` = threw, `some none` = non-HTML
(the source returns `null`), `some (some doc)` = the parsed page. -/
def fetchHtml (env : SiteEnv) (pageUrl : Url) : Option (Option PageDoc) :=
  match env.transport pageUrl with
  | none => none
  | some res =>
    if jsIncludes (jsToLower res.contentType) (jstr "text/html") then some res.doc
    else some none

/-- `extractImageUrls` (crawler.js:132): resolve each `img` source, drop
`data:` URIs, deduplicate hrefs preserving insertion order. -/
def extractImageUrls (doc : PageDoc) : List JStr :=
  doc.imgSrcs.foldl
    (fun acc o =>
      match o with
      | none => acc
      | some u =>
        let full := urlHref u
        if jsStartsWith full (jstr "data:") then acc
        else insertIfAbsent acc full)
    []

/-- `extractLinks` (crawler.js:151): resolve each anchor, keep only
`http:`/`https:` targets, optionally only those with the page's origin,
strip the fragment, deduplicate preserving insertion order. -/
def extractLinks (doc : PageDoc) (pageUrl : Url) (sameOriginOnly : Bool) : List Url :=
  let origin := urlOrigin pageUrl
  doc.anchorHrefs.foldl
    (fun acc o =>
      match o with
      | none => acc
      | some parsed =>
        if ¬ (parsed.protocol = jstr "http:" ∨ parsed.protocol = jstr "https:") then acc
        else if sameOriginOnly ∧ urlOrigin parsed ≠ origin then acc
        else insertIfAbsent acc { parsed with hash := [] })
    []

/-- Observable record of one site crawl: pages actually visited (with their
depth), every frontier push (`queue.push`, crawler.js:427), the visited-page
set, the discovered image locations and the page counter. -/
structure CrawlAcc where
  visits : List (Url × Nat)
  enqueued : List (Url × Nat)
  visitedPages : List Url
  discoveredImages : List JStr
  pagesVisited : Nat

/-- The empty crawl record. -/
def emptyCrawlAcc : CrawlAcc := ⟨[], [], [], [], 0⟩

/-- The `while (queue.length > 0)` loop of `run` (crawler.js:394–431).
`fuel` bounds the number of loop iterations; every theorem below holds for
every fuel, and a crawl that terminates is the value at any sufficiently
large fuel. -/
def crawlLoop (env : SiteEnv) (maxDepth : Nat) (sameOriginOnly : Bool) :
    Nat → List (Url × Nat) → CrawlAcc → CrawlAcc
  | 0, _, acc => acc
  | _ + 1, [], acc => acc
  | fuel + 1, current :: queue, acc =>
    if current.1 ∈ acc.visitedPages ∨ maxDepth < current.2 then
      crawlLoop env maxDepth sameOriginOnly fuel queue acc
    else
      let acc := { acc with
        visitedPages := acc.visitedPages ++ [current.1]
        visits := acc.visits ++ [current] }
      match fetchHtml env current.1 with
      | none => crawlLoop env maxDepth sameOriginOnly fuel queue acc      -- "SITE page_error"
      | some none => crawlLoop env maxDepth sameOriginOnly fuel queue acc -- "SITE skipped_non_html"
      | some (some doc) =>
        let acc := { acc with
          pagesVisited := acc.pagesVisited + 1
          discoveredImages := acc.discoveredImages ++ extractImageUrls doc }
        if current.2 < maxDepth then
          let links := extractLinks doc current.1 sameOriginOnly
          let fresh := (links.filter (fun l => l ∉ acc.visitedPages)).map
            (fun l => (l, current.2 + 1))
          crawlLoop env maxDepth sameOriginOnly fuel (queue ++ fresh)
            { acc with enqueued := acc.enqueued ++ fresh }
        else
          crawlLoop env maxDepth sameOriginOnly fuel queue acc

/-- The site branch of `run` (crawler.js:390): start from the seed at depth 0. -/
def siteCrawl (env : SiteEnv) (startUrl : Url) (maxDepth : Nat) (sameOriginOnly : Bool)
    (fuel : Nat) : CrawlAcc :=
  crawlLoop env maxDepth sameOriginOnly fuel [(startUrl, 0)] emptyCrawlAcc

/-! ## Scroll collector (`src/pinterest-driver.js`)

Embeds `normalizePinterestImageUrl`, the in-page extraction script passed to
`page.evaluate` (pinterest-driver.js:71–113) and the scroll loop of
`collectPinterestImageUrls` (pinterest-driver.js:67–131).  A rendered `<img>`
element is modelled by the fields the script reads; the DOM state at each
pass is an environment function from the pass index. -/

/-- A rendered image element as the in-page script sees it.  `containerText`
is `container?.textContent || ''`; `srcset`/`srcAttr` are the attributes with
`null` collapsed to `''` (the script applies `|| ''` to both). -/
structure ImgElement where
  containerText : JStr
  srcset : JStr
  currentSrc : JStr
  srcAttr : JStr
  naturalWidth : Nat
  naturalHeight : Nat
deriving DecidableEq, Repr

/-- The ad keyword list of the in-page script (pinterest-driver.js:72). -/
def adKeywords : List JStr :=
  [jstr "sponsored", jstr "promoted", jstr "ad", jstr "ads",
   jstr "sponsorizzato", jstr "pubblicita"]

/-- What one element contributes to the evaluated batch. -/
inductive ElemRes
  | ad
  | skip
  | url (candidate : JStr)
deriving DecidableEq, Repr

/-- The per-element logic of the in-page script (pinterest-driver.js:77–107):
ad filtering by container text, candidate selection (last entry of the
responsive `srcset` when present, else `currentSrc || src`), the `http`
prefix requirement and the 120×120 rendered-size floor. -/
def evalElem (img : ImgElement) : ElemRes :=
  let text := jsToLower img.containerText
  if adKeywords.any (fun k => jsIncludes text k) then .ad
  else
    let candidate0 := if img.currentSrc ≠ [] then img.currentSrc else img.srcAttr
    let parts := ((jsSplitOnChar ',' img.srcset).map
      (fun item => (jsTrim item).takeWhile (fun c => ¬ c.isWhitespace))).filter (· ≠ [])
    let candidate :=
      if jsTrim img.srcset ≠ [] then
        match parts.reverse with
        | [] => candidate0
        | p :: _ => p
      else candidate0
    if ¬ jsStartsWith candidate (jstr "http") then .skip
    else if 120 < img.naturalWidth ∧ 120 < img.naturalHeight then .url candidate
    else .skip

/-- The whole `page.evaluate` call: the pushed candidate URLs in document
order, and the count of ad-skipped elements. -/
def evalBatch (imgs : List ImgElement) : List JStr × Nat :=
  (imgs.filterMap (fun i => match evalElem i with | .url c => some c | _ => none),
   imgs.countP (fun i => evalElem i = ElemRes.ad))

/-- The `/\/(\d+x)\//` check at the head of a character list: `'/'`, one or
more digits, `'x'`, `'/'`; returns what follows the second slash. -/
def thumbSegMatch : JStr → Option JStr
  | '/' :: rest =>
    let ds := rest.takeWhile Char.isDigit
    if ds = [] then none
    else
      match rest.drop ds.length with
      | 'x' :: '/' :: tail => some tail
      | _ => none
  | _ => none

/-- `pathname.replace(/\/(\d+x)\//, '/originals/')`: replace the leftmost
thumbnail-size path segment, pass everything else through. -/
def replaceThumbSeg : JStr → JStr
  | [] => []
  | c :: rest =>
    match thumbSegMatch (c :: rest) with
    | some tail => jstr "/originals/" ++ tail
    | none => c :: replaceThumbSeg rest

/-- `normalizePinterestImageUrl` (pinterest-driver.js:14): `none` when `new
URL` throws; hosts outside `pinimg.com` pass through re-serialized; on
`pinimg.com` the thumbnail path segment is rewritten to `originals`. -/
def normalizePinterestImageUrl (parseUrl : JStr → Option Url) (raw : JStr) : Option JStr :=
  match parseUrl raw with
  | none => none
  | some u =>
    if jsIncludes u.host (jstr "pinimg.com") then
      some (urlHref { u with pathname := replaceThumbSeg u.pathname })
    else some (urlHref u)

/-- External collaborators of the collector: the DOM state rendered at each
pass (what `document.querySelectorAll('img')` yields on pass `k`) and the
URL parser. -/
structure CollectEnv where
  render : Nat → List ImgElement
  parseUrl : JStr → Option Url

/-- The `for (const raw of batch.urls)` loop (pinterest-driver.js:116–125):
normalize, add to the set, break as soon as the set reaches `maxImages`. -/
def addBatch (parseUrl : JStr → Option Url) (maxImages : Nat) :
    List JStr → List JStr → List JStr
  | found, [] => found
  | found, raw :: rest =>
    match normalizePinterestImageUrl parseUrl raw with
    | none => addBatch parseUrl maxImages found rest
    | some n =>
      let f := insertIfAbsent found n
      if maxImages ≤ f.length then f
      else addBatch parseUrl maxImages f rest

/-- Result of a collection run: the deduplicated URLs in insertion order and
the `scrolls`/`adsSkipped` stats (`collected` is `imageUrls.length`). -/
structure CollectRes where
  imageUrls : List JStr
  scrolls : Nat
  adsSkipped : Nat
deriving DecidableEq, Repr

/-- The `while (scroll < maxScrolls && found.size < maxImages)` loop
(pinterest-driver.js:70–131).  One fuel unit per pass; started with
`fuel = maxScrolls` the guard always fails by the time fuel runs out, so
this is exactly the source's loop. -/
def collectLoop (env : CollectEnv) (maxImages maxScrolls : Nat) :
    Nat → Nat → List JStr → Nat → CollectRes
  | 0, scroll, found, ads => ⟨found, scroll, ads⟩
  | fuel + 1, scroll, found, ads =>
    if scroll < maxScrolls ∧ found.length < maxImages then
      let batch := evalBatch (env.render scroll)
      let found' := addBatch env.parseUrl maxImages found batch.1
      collectLoop env maxImages maxScrolls fuel (scroll + 1) found' (ads + batch.2)
    else ⟨found, scroll, ads⟩

/-- `collectPinterestImageUrls` (pinterest-driver.js:29), from the start of
the scroll loop (session setup and consent dismissal have no effect on the
collected set). -/
def collectPinterestImageUrls (env : CollectEnv) (maxImages maxScrolls : Nat) : CollectRes :=
  collectLoop env maxImages maxScrolls maxScrolls 0 [] 0

/-! ## Control server (`src/server.js`)

Embeds `safeImageName`, `deleteImageByName`, the batch-delete handler,
`parseLogLine`, `buildProgress`, `buildCrawlerArgs`, `startCrawler` with its
child-process event handlers, and the `POST /api/crawl/start` handler.
`Date.parse`/`Date.now` and the filesystem are environment functions. -/

/-- A nullable timestamp string as the job state stores it, after
`Date.parse`: `absent` = `null`/`''` (falsy), `invalid` = parses to `NaN`,
`at ms` = a finite epoch-milliseconds value. -/
inductive JTime
  | absent
  | invalid
  | at (ms : Int)
deriving DecidableEq, Repr

/-- The result of `parseLogLine` (server.js:139). -/
structure LogLine where
  timestamp : Option Int
  message : JStr
deriving DecidableEq, Repr

/-- `parseLogLine` (server.js:139): the regex `^\[([^\]]+)\]\s+(.*)$`, with
`dateParse` standing for `Date.parse` (`none` = `NaN`, mapped to `null` by
the source). -/
def parseLogLine (dateParse : JStr → Option Int) (line : JStr) : LogLine :=
  match line with
  | '[' :: rest =>
    let inner := rest.takeWhile (· ≠ ']')
    if inner = [] then ⟨none, line⟩
    else
      match rest.drop inner.length with
      | ']' :: tail =>
        let ws := tail.takeWhile Char.isWhitespace
        if ws = [] then ⟨none, line⟩
        else ⟨dateParse inner, tail.drop ws.length⟩
      | _ => ⟨none, line⟩
  | _ => ⟨none, line⟩

/-- `readTail` (server.js:72) applied to already-split lines: drop empty
lines (`filter(Boolean)`), keep the last `maxLines`. -/
def readTailLines (lines : List JStr) (maxLines : Nat) : List JStr :=
  let fl := lines.filter (· ≠ [])
  fl.drop (fl.length - maxLines)

/-- Match `PINTEREST scroll=\d+\s+collected=(\d+)` at the head of the list,
returning the captured count. -/
def matchScrollAt (l : JStr) : Option Nat :=
  let lit1 := jstr "PINTEREST scroll="
  if lit1.isPrefixOf l then
    let r1 := l.drop lit1.length
    let d1 := r1.takeWhile Char.isDigit
    if d1 = [] then none
    else
      let r2 := r1.drop d1.length
      let ws := r2.takeWhile Char.isWhitespace
      if ws = [] then none
      else
        let r3 := r2.drop ws.length
        let lit2 := jstr "collected="
        if lit2.isPrefixOf r3 then
          let d2 := (r3.drop lit2.length).takeWhile Char.isDigit
          if d2 = [] then none else some (digitsToNat d2)
        else none
  else none

/-- Match `PINTEREST collected_total=(\d+)` at the head of the list. -/
def matchTotalAt (l : JStr) : Option Nat :=
  let lit := jstr "PINTEREST collected_total="
  if lit.isPrefixOf l then
    let d := (l.drop lit.length).takeWhile Char.isDigit
    if d = [] then none else some (digitsToNat d)
  else none

/-- Unanchored regex search: try the matcher at each position, leftmost
match wins. -/
def scanFirst (f : JStr → Option Nat) : JStr → Option Nat
  | [] => f []
  | c :: rest =>
    match f (c :: rest) with
    | some v => some v
    | none => scanFirst f rest

/-- `message.match(/PINTEREST scroll=\d+\s+collected=(\d+)/)` (server.js:186). -/
def matchScroll (msg : JStr) : Option Nat := scanFirst matchScrollAt msg

/-- `message.match(/PINTEREST collected_total=(\d+)/)` (server.js:191). -/
def matchTotal (msg : JStr) : Option Nat := scanFirst matchTotalAt msg

/-- The accumulators of the log-scanning loop of `buildProgress`
(server.js:166–195). -/
structure LogCounts where
  saved : Nat
  skipped : Nat
  failed : Nat
  collected : Nat
  collectedTotal : Nat
deriving DecidableEq, Repr

/-- The skip test of the log-scanning loop (server.js:174): a line is
skipped when its timestamp is truthy (present and nonzero), the start time
is finite and the timestamp is more than 1 s older than it. -/
def lineSkipped (saMs : Option Int) (pl : LogLine) : Bool :=
  match pl.timestamp, saMs with
  | some t, some s => decide (t ≠ 0 ∧ t < s - 1000)
  | _, _ => false

/-- One iteration of the log-scanning loop (server.js:172–195). -/
def progressStep (saMs : Option Int) (acc : LogCounts) (pl : LogLine) : LogCounts :=
  if lineSkipped saMs pl then acc
  else
    let acc :=
      if jsStartsWith pl.message (jstr "IMG saved") then
        { acc with saved := acc.saved + 1 }
      else if jsStartsWith pl.message (jstr "IMG skipped_small") then
        { acc with skipped := acc.skipped + 1 }
      else if jsStartsWith pl.message (jstr "IMG failed_non_image_or_status")
          ∨ jsStartsWith pl.message (jstr "IMG error") then
        { acc with failed := acc.failed + 1 }
      else acc
    let acc :=
      match matchScroll pl.message with
      | some v => { acc with collected := max acc.collected v }
      | none => acc
    match matchTotal pl.message with
    | some v => { acc with collectedTotal := max acc.collectedTotal v }
    | none => acc

/-- The slice of the job state `buildProgress` reads: the run flag, the
parsed start/end times, and the launch payload's `mode` (`[]` = absent, the
source applies `|| 'site'`) and `Number(payload.maxImages || 0)`. -/
structure ProgJobView where
  running : Bool
  startedAt : JTime
  endedAt : JTime
  payloadMode : JStr
  payloadMaxImages : Int
deriving DecidableEq, Repr

/-- The record `buildProgress` returns. -/
structure ProgressOut where
  mode : JStr
  processed : Nat
  saved : Nat
  skipped : Nat
  failed : Nat
  collected : Nat
  target : Option Int
  percent : Option Int
  elapsedSec : Option Int
  etaSec : Option Int
deriving DecidableEq, Repr

/-- `buildProgress` (server.js:152), over the raw activity-record lines.
`dateParse` is `Date.parse` for log-line timestamps, `nowMsEnv` is
`Date.now()`. -/
def buildProgress (dateParse : JStr → Option Int) (st : ProgJobView)
    (activityLines : List JStr) (nowMsEnv : Int) : Option ProgressOut :=
  if st.startedAt = JTime.absent then none
  else
    let saMs : Option Int := match st.startedAt with | .at s => some s | _ => none
    let endMs : Option Int := match st.endedAt with | .at e => some e | _ => none
    -- `const nowMs = endedAtMs || Date.now()`: null, NaN and 0 are all falsy
    let nowMs : Int :=
      match endMs with
      | some e => if e = 0 then nowMsEnv else e
      | none => nowMsEnv
    let elapsedSec : Option Int := saMs.map (fun s => max 0 (jsRoundDiv (nowMs - s) 1000))
    let logs := readTailLines activityLines 4000
    let c := logs.foldl (fun acc line => progressStep saMs acc (parseLogLine dateParse line))
      ⟨0, 0, 0, 0, 0⟩
    let processed := c.saved + c.skipped + c.failed
    let mode := if st.payloadMode = [] then jstr "site" else st.payloadMode
    let target : Int :=
      if mode = jstr "pinterest" then
        if 0 < c.collectedTotal then (c.collectedTotal : Int)
        else if 0 < c.collected then max st.payloadMaxImages (c.collected : Int)
        else st.payloadMaxImages
      else 0
    let percent : Option Int :=
      if 0 < target then some (min 100 (jsRoundDiv (100 * processed) target)) else none
    let eta0 : Option Int :=
      if st.running then
        match elapsedSec with
        | some e =>
          if 0 < target ∧ 0 < processed ∧ (processed : Int) < target then
            some (jsRoundDiv (e * (target - processed)) processed)
          else none
        | none => none
      else none
    let etaSec := if ¬ st.running ∧ percent ≠ none then some 0 else eta0
    some { mode := mode, processed := processed, saved := c.saved, skipped := c.skipped,
           failed := c.failed, collected := c.collected,
           target := if 0 < target then some target else none,
           percent := percent, elapsedSec := elapsedSec, etaSec := etaSec }

/-- The launch parameters, each field already coerced by `String(...)`
(`none` = absent). -/
structure CrawlPayload where
  mode : Option JStr
  url : Option JStr
  query : Option JStr
  depth : Option JStr
  minWidth : Option JStr
  quality : Option JStr
  cookie : Option JStr
  sameOrigin : Option JStr
  maxImages : Option JStr
  maxScrolls : Option JStr
  headful : Option JStr
deriving DecidableEq, Repr

/-- `exists` (server.js:29): defined, non-null, nonempty after trim. -/
def existsVal : Option JStr → Bool
  | none => false
  | some v => jsTrim v ≠ []

/-- `addArg` (server.js:33). -/
def addArg (args : List JStr) (key : JStr) (v : Option JStr) : List JStr :=
  if existsVal v then args ++ [jstr "--" ++ key, v.getD []] else args

/-- `buildCrawlerArgs` (server.js:40). -/
def buildCrawlerArgs (p : CrawlPayload) : List JStr :=
  let mode := match p.mode with
    | some m => if m = [] then jstr "site" else m
    | none => jstr "site"
  let args := addArg [jstr "src/crawler.js"] (jstr "mode") (some mode)
  let args := addArg args (jstr "url") p.url
  let args := addArg args (jstr "query") p.query
  let args := addArg args (jstr "depth") p.depth
  let args := addArg args (jstr "min-width") p.minWidth
  let args := addArg args (jstr "q") p.quality
  let args := addArg args (jstr "cookie") p.cookie
  let args := addArg args (jstr "same-origin") p.sameOrigin
  let args := addArg args (jstr "max-images") p.maxImages
  let args := addArg args (jstr "max-scrolls") p.maxScrolls
  addArg args (jstr "headful") p.headful

/-- The `JobState` singleton (server.js:18): timestamps as epoch ms. -/
structure JobState where
  running : Bool
  pid : Option Nat
  startedAt : Option Int
  endedAt : Option Int
  exitCode : Option Int
  lastError : Option JStr
  command : Option JStr
  payload : Option CrawlPayload
deriving DecidableEq, Repr

/-- The initial job state (server.js:18). -/
def initialJobState : JobState :=
  ⟨false, none, none, none, none, none, none, none⟩

/-- What `spawn` returns: `pid` is `undefined` when the child failed to
spawn (the failure itself arrives later on the `error` event). -/
structure SpawnedChild where
  pid : Option Nat
deriving DecidableEq, Repr

/-- The state mutation performed by `startCrawler` (server.js:242–249):
every field is assigned, unconditionally, right after `spawn` returns. -/
def startCrawlerState (p : CrawlPayload) (child : SpawnedChild) (execPath : JStr)
    (now : Int) : JobState :=
  { running := true
    pid := child.pid
    startedAt := some now
    endedAt := none
    exitCode := none
    lastError := none
    command := some (List.intercalate (jstr " ") (execPath :: buildCrawlerArgs p))
    payload := some p }

/-- The `child.on('error')` handler (server.js:259): records the message,
touches nothing else. -/
def onChildError (s : JobState) (msg : JStr) : JobState :=
  { s with lastError := some msg }

/-- The `child.on('close')` handler (server.js:263): leave `Running`,
recording end time and exit status. -/
def onChildClose (s : JobState) (code : Option Int) (now : Int) : JobState :=
  { s with running := false, pid := none, endedAt := some now, exitCode := code }

/-- The HTTP outcome of `POST /api/crawl/start`, with the state snapshot the
response carries. -/
inductive StartResponse
  | rejected409 (snapshot : JobState)
  | ok200 (snapshot : JobState)
deriving DecidableEq, Repr

/-- The `POST /api/crawl/start` handler (server.js:283): single-flight check
then launch. -/
def postCrawlStart (s : JobState) (p : CrawlPayload) (child : SpawnedChild)
    (execPath : JStr) (now : Int) : JobState × StartResponse :=
  if s.running then (s, .rejected409 s)
  else
    let s' := startCrawlerState p child execPath now
    (s', .ok200 s')

/-- `safeImageName` (server.js:106).  `none` input = `undefined`/`null`
(rejected by `exists`). -/
def safeImageName (raw : Option JStr) : Option JStr :=
  match raw with
  | none => none
  | some r =>
    if jsTrim r = [] then none
    else
      let trimmed := jsTrim r
      let normalized := jsBasename trimmed
      if normalized = [] ∨ normalized = jstr "." ∨ normalized = jstr ".." then none
      else if normalized ≠ trimmed then none
      else some normalized

/-- What `fs.unlink` does at a path. -/
inductive UnlinkOutcome
  | ok
  | enoent
  | err (msg : JStr)
deriving DecidableEq, Repr

/-- The JSON result of a delete operation. -/
structure DeleteRes where
  ok : Bool
  name : Option JStr
  error : Option JStr
deriving DecidableEq, Repr

/-- `deleteImageByName` (server.js:121).  The second component is the path
`fs.unlink` was invoked on (`none` = no unlink was attempted). -/
def deleteImageByName (fsUnlink : JStr → UnlinkOutcome) (imagesDir : JStr)
    (rawName : Option JStr) : DeleteRes × Option JStr :=
  match safeImageName rawName with
  | none => (⟨false, rawName, some (jstr "Nome file non valido")⟩, none)
  | some name =>
    let fullPath := joinPath imagesDir name
    match fsUnlink fullPath with
    | .ok => (⟨true, some name, none⟩, some fullPath)
    | .enoent => (⟨false, some name, some (jstr "File non trovato")⟩, some fullPath)
    | .err m => (⟨false, some name, some m⟩, some fullPath)

/-- `[...new Set(l)]`: deduplicate preserving insertion order. -/
def jsSetDedup (l : List JStr) : List JStr := l.foldl insertIfAbsent []

/-- The `POST /api/images/delete-batch` handler (server.js:323): `none` =
a 400 response (empty or all-invalid list), otherwise the per-name results
in order. -/
def deleteBatch (fsUnlink : JStr → UnlinkOutcome) (imagesDir : JStr)
    (names : List JStr) : Option (List (DeleteRes × Option JStr)) :=
  if names = [] then none
  else
    let unique := jsSetDedup ((names.map jsTrim).filter (· ≠ []))
    if unique = [] then none
    else some (unique.map (fun n => deleteImageByName fsUnlink imagesDir (some n)))

/-! ## Auxiliary definitions for the proofs -/

/-- The outcome class a candidate would get, determined by the environment
and the location alone. -/
def outcomeKind (env : IngestEnv) (outputDir : JStr) (minWidth : Nat) (quality : Int)
    (imageUrl : JStr) : OutcomeKind :=
  (processOne env outputDir minWidth quality imageUrl).kind

/-- Count of seen candidates with a given outcome. -/
def kindCount (env : IngestEnv) (dir : JStr) (mw : Nat) (q : Int) (k : OutcomeKind)
    (l : List JStr) : Nat :=
  l.countP (fun u => outcomeKind env dir mw q u == k)

/-- Loop invariant of `downloadImages`: the seen set is duplicate-free, each
counter counts the seen candidates with that outcome, and every write so far
is one its own candidate's processing produces. -/
def DlInv (env : IngestEnv) (dir : JStr) (mw : Nat) (q : Int) (st : DlState) : Prop :=
  st.seen.Nodup ∧
  st.stats.imagesSaved = kindCount env dir mw q .saved st.seen ∧
  st.stats.imagesSkippedSmall = kindCount env dir mw q .skippedSmall st.seen ∧
  st.stats.imagesFailed = kindCount env dir mw q .failed st.seen ∧
  (∀ e ∈ st.writes, e ∈ (processOne env dir mw q e.url).writes)

/-- Where a collected URL can come from: some rendered element that the
in-page script accepted, normalized by `normalizePinterestImageUrl`. -/
def CollectedFrom (env : CollectEnv) (u : JStr) : Prop :=
  ∃ k img raw, img ∈ env.render k ∧ evalElem img = ElemRes.url raw ∧
    normalizePinterestImageUrl env.parseUrl raw = some u

/-- A gallery page that always renders the same 10 fresh, distinct,
sufficiently large, non-sponsored images on every pass. -/
def scenarioImgs : List ImgElement :=
  (List.range 10).map (fun i =>
    { containerText := []
      srcset := []
      currentSrc := jstr "http://img.example/p" ++ natChars i
      srcAttr := []
      naturalWidth := 400
      naturalHeight := 400 })

/-- The end-to-end scroll scenario: every pass renders `scenarioImgs`; the
URL parser accepts everything verbatim as a path on a non-CDN host. -/
def scenarioCollectEnv : CollectEnv :=
  { render := fun _ => scenarioImgs
    parseUrl := fun s => some ⟨jstr "http:", jstr "img.example", s, [], []⟩ }

/-- Job view for the progress scenario: a running pinterest-mode job started
at epoch-ms 1700000000000 with a declared maximum of 8 images. -/
def scenarioProgState : ProgJobView :=
  { running := true
    startedAt := .at 1700000000000
    endedAt := .absent
    payloadMode := jstr "pinterest"
    payloadMaxImages := 8 }

/-- Activity record for the progress scenario: three saves and one
small-skip after job start, no failure lines. -/
def scenarioActivity : List JStr :=
  [ jstr "[t1] IMG saved path=/img/a.jpg width=300 height=200 bytesBefore=10 bytesAfter=5 recompressed=true"
  , jstr "[t2] IMG saved path=/img/b.jpg width=300 height=200 bytesBefore=10 bytesAfter=5 recompressed=true"
  , jstr "[t3] IMG saved path=/img/c.jpg width=301 height=200 bytesBefore=10 bytesAfter=5 recompressed=true"
  , jstr "[t4] IMG skipped_small url=http://x/d.jpg width=50 minWidth=200" ]

/-- `Date.parse` for the scenario: every line stamps shortly after start. -/
def scenarioDateParse : JStr → Option Int := fun _ => some 1700000000100

/-- The parsed start time `buildProgress` works with. -/
def startedAtMs (st : ProgJobView) : Option Int :=
  match st.startedAt with
  | .at s => some s
  | _ => none

/-- The activity lines the scanning loop actually consumes: last 4000
nonempty lines, minus the ones the timestamp filter skips. -/
def inScopeLines (dateParse : JStr → Option Int) (saMs : Option Int)
    (lines : List JStr) : List JStr :=
  (readTailLines lines 4000).filter (fun l => !lineSkipped saMs (parseLogLine dateParse l))

/-- Every `PINTEREST collected_total=n` value among the in-scope lines, in
record order. -/
def totalValuesInScope (dateParse : JStr → Option Int) (saMs : Option Int)
    (lines : List JStr) : List Nat :=
  (inScopeLines dateParse saMs lines).filterMap
    (fun l => matchTotal (parseLogLine dateParse l).message)

/-- Every `PINTEREST scroll=… collected=n` value among the in-scope lines. -/
def scrollValuesInScope (dateParse : JStr → Option Int) (saMs : Option Int)
    (lines : List JStr) : List Nat :=
  (inScopeLines dateParse saMs lines).filterMap
    (fun l => matchScroll (parseLogLine dateParse l).message)

/-- The largest in-scope collection-total value (0 when none appeared). -/
def maxTotalInScope (dateParse : JStr → Option Int) (saMs : Option Int)
    (lines : List JStr) : Nat :=
  (totalValuesInScope dateParse saMs lines).foldr max 0

/-- The largest in-scope scroll-progress value (0 when none appeared). -/
def maxScrollInScope (dateParse : JStr → Option Int) (saMs : Option Int)
    (lines : List JStr) : Nat :=
  (scrollValuesInScope dateParse saMs lines).foldr max 0

/-- Modelled from the spec (§4.4, `target`): for the scroll-discovery mode,
"the declared maximum image count, overridden … by the most recent
collection total line if one has appeared"; for site-crawl mode, undefined. -/
def specTargetMostRecent (dateParse : JStr → Option Int) (st : ProgJobView)
    (lines : List JStr) : Option Int :=
  let mode := if st.payloadMode = [] then jstr "site" else st.payloadMode
  if mode = jstr "pinterest" then
    match (totalValuesInScope dateParse (startedAtMs st) lines).getLast? with
    | some v => some (v : Int)
    | none => some st.payloadMaxImages
  else none

/-- A pinterest-mode job view used to probe the target computation. -/
def probeProgState : ProgJobView :=
  { running := true
    startedAt := .at 1700000000000
    endedAt := .absent
    payloadMode := jstr "pinterest"
    payloadMaxImages := 8 }

/-- Two in-scope collection-total lines, the more recent one smaller. -/
def probeTotalsLines : List JStr :=
  [ jstr "[t1] PINTEREST collected_total=50"
  , jstr "[t2] PINTEREST collected_total=30" ]

/-- One in-scope scroll-progress line larger than the declared maximum, with
no collection-total line. -/
def probeScrollLines : List JStr :=
  [ jstr "[t1] PINTEREST scroll=1 collected=12 adsSkipped=0" ]

/-- An all-absent launch payload. -/
def probePayload : CrawlPayload :=
  ⟨none, none, none, none, none, none, none, none, none, none, none⟩

/-- A child whose spawn failed: no pid; the failure will be delivered on the
`error` event. -/
def probeFailedChild : SpawnedChild := ⟨none⟩

/-! ## Concrete environments and probe data for the witnesses -/

/-- A concrete ingest environment: `http://h/s.png` serves a decodable but
too-small PNG; `http://h/b.png` serves an 800×600 PNG. -/
def wEnv : IngestEnv :=
  { transport := fun u =>
      if u = jstr "http://h/s.png" then some ⟨200, jstr "image/png", [1, 2, 3]⟩
      else if u = jstr "http://h/b.png" then some ⟨200, jstr "image/png", [9, 9]⟩
      else none
    decodeSize := fun b =>
      if b = [1, 2, 3] then some ⟨50, 40, some (jstr "png")⟩
      else if b = [9, 9] then some ⟨800, 600, some (jstr "png")⟩
      else none
    sharpEncode := fun _ _ _ => some [7]
    writeFile := fun _ _ => true
    parseUrl := fun s =>
      if s = jstr "http://h/b.png" then some ⟨jstr "http:", jstr "h", jstr "/b.png", [], []⟩
      else some ⟨jstr "http:", jstr "h", jstr "/s.png", [], []⟩
    sha1hex := fun _ => jstr "abcdefghij" }

/-- Seed page of the witness site: one same-origin link carrying a
fragment, one cross-origin link, one unresolvable anchor. -/
def wSeed : Url := ⟨jstr "https:", jstr "s.example", jstr "/", [], []⟩

def wDoc : PageDoc :=
  { imgSrcs := [some ⟨jstr "https:", jstr "s.example", jstr "/i.png", [], []⟩]
    anchorHrefs :=
      [ some ⟨jstr "https:", jstr "s.example", jstr "/p2", [], jstr "#frag"⟩
      , some ⟨jstr "https:", jstr "other.example", jstr "/", [], []⟩
      , none ] }

def wSiteEnv : SiteEnv := { transport := fun _ => some ⟨jstr "text/html", wDoc⟩ }

/-- An element sitting in a container whose text contains `sponsored`. -/
def wSponsImg : ImgElement :=
  ⟨jstr "deal of the day - sponsored", [], jstr "http://x/a.jpg", [], 300, 300⟩

/-- The job view of `probeProgState` with site mode instead. -/
def probeSiteState : ProgJobView :=
  { probeProgState with payloadMode := jstr "site" }

/-- What `buildProgress` returns on `probeProgState`/`probeTotalsLines`. -/
def probePinterestOut : ProgressOut :=
  ⟨jstr "pinterest", 0, 0, 0, 0, 0, some 50, some 0, some 1, none⟩

/-- What `buildProgress` returns on `probeSiteState`/`probeTotalsLines`. -/
def probeSiteOut : ProgressOut :=
  ⟨jstr "site", 0, 0, 0, 0, 0, none, none, some 1, none⟩

/-- A job state currently running. -/
def probeRunningState : JobState :=
  { running := true, pid := some 42, startedAt := some 1700000000000, endedAt := none,
    exitCode := none, lastError := none, command := none, payload := none }

/-- A filesystem on which every unlink succeeds. -/
def wUnlink : JStr → UnlinkOutcome := fun _ => .ok

/-! ## Sanity checks on the string primitives -/

example : jsToLower (jstr "AbC") = jstr "abc" := by decide
example : jsIncludes (jstr "text/html; charset=utf8") (jstr "text/html") = true := by decide
example : jsTrim (jstr "  a b ") = jstr "a b" := by decide
example : jsSplitOnChar ',' (jstr "a,,b") = [jstr "a", [], jstr "b"] := by decide
example : natChars 736 = jstr "736" := by decide
example : natChars 0 = jstr "0" := by decide
example : digitsToNat (jstr "507") = 507 := by decide
example : jsRoundDiv 400 8 = 50 := by decide
example : insertIfAbsent [jstr "a"] (jstr "a") = [jstr "a"] := by decide

/-! ## Properties of the image ingestor -/

/-- Every file written while processing one candidate is tagged with that
candidate's location, carries the deterministic filename `savedFilename`
computes for it, and lives directly in the output directory. -/
theorem processOne_writes (env : IngestEnv) (outputDir : JStr) (minWidth : Nat)
    (quality : Int) (u : JStr) :
    ∀ e ∈ (processOne env outputDir minWidth quality u).writes,
      e.url = u ∧ some e.filename = savedFilename env u ∧
        e.path = joinPath outputDir e.filename := by
  intro e he
  unfold processOne at he
  unfold savedFilename
  cases hf : fetchImage env u with
  | none => simp only [hf] at he; simp at he
  | some o =>
    cases o with
    | none => simp only [hf] at he; simp at he
    | some p =>
      obtain ⟨ct, buffer⟩ := p
      simp only [hf] at he ⊢
      cases hd : env.decodeSize buffer with
      | none => simp only [hd] at he; simp at he
      | some size =>
        simp only [hd] at he ⊢
        by_cases hw : size.width = 0 ∨ size.width < minWidth
        · simp only [if_pos hw] at he; simp at he
        · simp only [if_neg hw] at he
          cases hr : recompressImage env buffer size.type quality with
          | none => simp only [hr] at he; simp at he
          | some ob =>
            obtain ⟨outBuf, rec⟩ := ob
            simp only [hr] at he
            cases hp : env.parseUrl u with
            | none => simp only [hp] at he; simp at he
            | some pu =>
              simp only [hp] at he ⊢
              by_cases hwr : env.writeFile
                  (joinPath outputDir
                    (filenameFromUrl env.sha1hex pu size.type ct size.width size.height))
                  outBuf = true
              · simp only [if_pos hwr] at he
                simp only [List.mem_singleton] at he
                subst he
                exact ⟨rfl, rfl, rfl⟩
              · simp only [if_neg hwr] at he; simp at he

/-- A candidate already in the seen set is skipped entirely: no counter, no
write, no state change. -/
theorem dlStep_mem_eq (env : IngestEnv) (dir : JStr) (mw : Nat) (q : Int)
    (st : DlState) (u : JStr) (h : u ∈ st.seen) :
    dlStep env dir mw q st u = st := by
  unfold dlStep
  rw [if_pos h]

lemma dlStep_inv (env : IngestEnv) (dir : JStr) (mw : Nat) (q : Int)
    (st : DlState) (u : JStr) (h : DlInv env dir mw q st) :
    DlInv env dir mw q (dlStep env dir mw q st u) ∧
    (dlStep env dir mw q st u).seen.toFinset = insert u st.seen.toFinset := by
  obtain ⟨hnd, hs, hk, hf2, hw⟩ := h
  by_cases hm : u ∈ st.seen
  · rw [dlStep_mem_eq env dir mw q st u hm]
    exact ⟨⟨hnd, hs, hk, hf2, hw⟩,
      (Finset.insert_eq_self.mpr (List.mem_toFinset.mpr hm)).symm⟩
  · unfold dlStep
    rw [if_neg hm]
    refine ⟨⟨?_, ?_, ?_, ?_, ?_⟩, ?_⟩
    · simpa [List.nodup_append] using ⟨hnd, hm⟩
    · simp [applyOutcome, kindCount, List.countP_append, List.countP_cons, outcomeKind] at *
      assumption
    · simp [applyOutcome, kindCount, List.countP_append, List.countP_cons, outcomeKind] at *
      assumption
    · simp [applyOutcome, kindCount, List.countP_append, List.countP_cons, outcomeKind] at *
      assumption
    · intro e he
      rcases List.mem_append.mp he with h1 | h1
      · exact hw e h1
      · have := processOne_writes env dir mw q u e h1
        rw [this.1]
        exact h1
    · simp [List.toFinset_append]
      exact Finset.union_comm _ _

lemma dlFold_inv (env : IngestEnv) (dir : JStr) (mw : Nat) (q : Int)
    (urls : List JStr) (st : DlState) (h : DlInv env dir mw q st) :
    DlInv env dir mw q (urls.foldl (dlStep env dir mw q) st) ∧
    (urls.foldl (dlStep env dir mw q) st).seen.toFinset =
      st.seen.toFinset ∪ urls.toFinset := by
  induction urls generalizing st with
  | nil => simpa using h
  | cons u rest ih =>
    simp only [List.foldl_cons]
    obtain ⟨h1, h2⟩ := dlStep_inv env dir mw q st u h
    obtain ⟨h3, h4⟩ := ih _ h1
    refine ⟨h3, ?_⟩
    rw [h4, h2, List.toFinset_cons]
    ext x
    simp only [Finset.mem_union, Finset.mem_insert]
    tauto

lemma kindCount_partition (env : IngestEnv) (dir : JStr) (mw : Nat) (q : Int)
    (l : List JStr) :
    kindCount env dir mw q .saved l + kindCount env dir mw q .skippedSmall l +
      kindCount env dir mw q .failed l = l.length := by
  induction l with
  | nil => rfl
  | cons a t ih =>
    simp only [kindCount, List.countP_cons] at *
    cases h : outcomeKind env dir mw q a <;> simp [h] <;> omega

/-- **C1.**  For every candidate list handed to `downloadImages`, possibly
with duplicates, each unique location is processed at most once — the set of
processed candidates is duplicate-free and is exactly the set of unique
input locations, and a repeated candidate leaves the loop state (counters
included) completely unchanged — and on return
`imagesSaved + imagesSkippedSmall + imagesFailed` equals the number of
unique locations in the input. -/
theorem downloadImages_unique_once_and_counter_sum (env : IngestEnv) (outputDir : JStr)
    (imageUrls : List JStr) (minWidth : Nat) (quality : Int) :
    (downloadImages env outputDir imageUrls minWidth quality).seen.Nodup ∧
    (downloadImages env outputDir imageUrls minWidth quality).seen.toFinset =
      imageUrls.toFinset ∧
    (∀ st u, u ∈ st.seen → dlStep env outputDir minWidth quality st u = st) ∧
    (downloadImages env outputDir imageUrls minWidth quality).stats.imagesSaved +
      (downloadImages env outputDir imageUrls minWidth quality).stats.imagesSkippedSmall +
      (downloadImages env outputDir imageUrls minWidth quality).stats.imagesFailed =
      imageUrls.toFinset.card := by
  have hinit : DlInv env outputDir minWidth quality
      { seen := [], stats := ⟨imageUrls.length, 0, 0, 0, 0, 0, 0⟩, writes := [] } := by
    refine ⟨List.nodup_nil, rfl, rfl, rfl, ?_⟩
    intro e he
    simp at he
  obtain ⟨⟨hnd, hs, hk, hf2, _⟩, hset⟩ :=
    dlFold_inv env outputDir minWidth quality imageUrls _ hinit
  have hset' : (downloadImages env outputDir imageUrls minWidth quality).seen.toFinset =
      imageUrls.toFinset := by
    simpa [downloadImages] using hset
  refine ⟨hnd, hset', fun st u h => dlStep_mem_eq env outputDir minWidth quality st u h, ?_⟩
  have hpart := kindCount_partition env outputDir minWidth quality
    (downloadImages env outputDir imageUrls minWidth quality).seen
  have hcard : (downloadImages env outputDir imageUrls minWidth quality).seen.toFinset.card =
      (downloadImages env outputDir imageUrls minWidth quality).seen.length :=
    List.toFinset_card_of_nodup hnd
  rw [show (downloadImages env outputDir imageUrls minWidth quality).stats.imagesSaved =
        kindCount env outputDir minWidth quality .saved
          (downloadImages env outputDir imageUrls minWidth quality).seen from hs,
      show (downloadImages env outputDir imageUrls minWidth quality).stats.imagesSkippedSmall =
        kindCount env outputDir minWidth quality .skippedSmall
          (downloadImages env outputDir imageUrls minWidth quality).seen from hk,
      show (downloadImages env outputDir imageUrls minWidth quality).stats.imagesFailed =
        kindCount env outputDir minWidth quality .failed
          (downloadImages env outputDir imageUrls minWidth quality).seen from hf2,
      hpart, ← hset', hcard]

/-- Every file the whole run writes is one that processing its own candidate
produces. -/
lemma downloadImages_writes_sound (env : IngestEnv) (dir : JStr) (urls : List JStr)
    (mw : Nat) (q : Int) :
    ∀ e ∈ (downloadImages env dir urls mw q).writes,
      e ∈ (processOne env dir mw q e.url).writes := by
  have hinit : DlInv env dir mw q
      { seen := [], stats := ⟨urls.length, 0, 0, 0, 0, 0, 0⟩, writes := [] } := by
    refine ⟨List.nodup_nil, rfl, rfl, rfl, ?_⟩
    intro e he
    simp at he
  exact (dlFold_inv env dir mw q urls _ hinit).1.2.2.2.2

/-- **C2.**  A fetched candidate whose decoded width is unknown (`0`) or
below `minWidth` is classified `skipped_small` — its processing increments
only that counter and produces no write — and no file tagged with that
location is ever written to the content store by the run. -/
theorem downloadImages_small_skipped_never_written (env : IngestEnv) (outputDir : JStr)
    (imageUrls : List JStr) (minWidth : Nat) (quality : Int) (imageUrl : JStr)
    (ct : JStr) (buffer : Bytes) (size : SizeInfo)
    (hfetch : fetchImage env imageUrl = some (some (ct, buffer)))
    (hsize : env.decodeSize buffer = some size)
    (hsmall : size.width = 0 ∨ size.width < minWidth) :
    processOne env outputDir minWidth quality imageUrl =
      ⟨.skippedSmall, 0, 0, 0, []⟩ ∧
    ∀ e ∈ (downloadImages env outputDir imageUrls minWidth quality).writes,
      e.url ≠ imageUrl := by
  have hone : processOne env outputDir minWidth quality imageUrl =
      ⟨.skippedSmall, 0, 0, 0, []⟩ := by
    unfold processOne
    simp only [hfetch, hsize, if_pos hsmall]
  refine ⟨hone, ?_⟩
  intro e he heq
  have hsound := downloadImages_writes_sound env outputDir imageUrls minWidth quality e he
  rw [heq, hone] at hsound
  simp at hsound

lemma sanitizeFilename_ne_nil (s : JStr) (h : s ≠ []) : sanitizeFilename s ≠ [] := by
  unfold sanitizeFilename
  intro hc
  have := congrArg List.length hc
  simp [List.length_take] at this
  exact h this

lemma sanitizeFilename_length_le (s : JStr) : (sanitizeFilename s).length ≤ 180 := by
  simp [sanitizeFilename, List.length_take]

lemma sanitizeFilename_chars (s : JStr) : ∀ c ∈ sanitizeFilename s, isSafeFilenameChar c := by
  intro c hc
  unfold sanitizeFilename at hc
  have hc' := List.mem_of_mem_take hc
  obtain ⟨a, _, ha⟩ := List.mem_map.mp hc'
  by_cases hs : isSafeFilenameChar a
  · rw [if_pos hs] at ha; rwa [← ha]
  · rw [if_neg hs] at ha; rw [← ha]; decide

/-- **C5.**  The stored filename has the shape
`hash(location)[0:10] - width x height - sanitized-basename . ext`:
a 10-character SHA-1 prefix of the serialized location, the decoded
dimensions, a sanitized nonempty basename of at most 180 characters drawn
from `[a-zA-Z0-9._-]`, and an extension taken from the decoded format tag,
falling back to the declared content-type and then to `.img`.  And the
filename is a deterministic function of the location and its fetched
content: any two files written for the same location — in the same run or
in two different runs against the same remote state, whatever the candidate
lists, output directories, width thresholds or qualities — carry the
identical filename. -/
theorem filenameFromUrl_shape_and_determinism :
    (∀ (sha1hex : JStr → JStr) (u : Url) (type? : Option JStr) (contentType : JStr)
        (width height : Nat),
      ∃ safeBase ext,
        filenameFromUrl sha1hex u type? contentType width height =
          (sha1hex (urlHref u)).take 10 ++ jstr "-" ++
            (natChars width ++ jstr "x" ++ natChars height) ++ jstr "-" ++
            safeBase ++ ext ∧
        safeBase ≠ [] ∧ safeBase.length ≤ 180 ∧
        (∀ c ∈ safeBase, isSafeFilenameChar c) ∧
        ((ext = extensionFromImageType type? ∧ extensionFromImageType type? ≠ []) ∨
          (extensionFromImageType type? = [] ∧ ext = extensionFromContentType contentType ∧
            extensionFromContentType contentType ≠ []) ∨
          (extensionFromImageType type? = [] ∧ extensionFromContentType contentType = [] ∧
            ext = jstr ".img"))) ∧
    (∀ (env : IngestEnv) (dir₁ dir₂ : JStr) (urls₁ urls₂ : List JStr)
        (mw₁ mw₂ : Nat) (q₁ q₂ : Int) (e₁ e₂ : WriteEvent),
      e₁ ∈ (downloadImages env dir₁ urls₁ mw₁ q₁).writes →
      e₂ ∈ (downloadImages env dir₂ urls₂ mw₂ q₂).writes →
      e₁.url = e₂.url → e₁.filename = e₂.filename) := by
  constructor
  · intro sha1hex u type? contentType width height
    refine ⟨_, _, rfl, ?_, ?_, ?_, ?_⟩
    · apply sanitizeFilename_ne_nil
      dsimp only
      split
      · decide
      · split
        · decide
        · assumption
    · apply sanitizeFilename_length_le
    · apply sanitizeFilename_chars
    · by_cases h1 : extensionFromImageType type? = []
      · by_cases h2 : extensionFromContentType contentType = []
        · simp [h1, h2]
        · simp [h1, h2]
      · simp [h1]
  · intro env dir₁ dir₂ urls₁ urls₂ mw₁ mw₂ q₁ q₂ e₁ e₂ h1 h2 hurl
    have s1 := (processOne_writes env dir₁ mw₁ q₁ e₁.url e₁
      (downloadImages_writes_sound env dir₁ urls₁ mw₁ q₁ e₁ h1)).2.1
    have s2 := (processOne_writes env dir₂ mw₂ q₂ e₂.url e₂
      (downloadImages_writes_sound env dir₂ urls₂ mw₂ q₂ e₂ h2)).2.1
    rw [hurl] at s1
    rw [← s2] at s1
    exact Option.some.inj s1

/-! ## Properties of the site crawler -/

lemma mem_insertIfAbsent {α : Type} [DecidableEq α] {l : List α} {a x : α}
    (h : x ∈ insertIfAbsent l a) : x ∈ l ∨ x = a := by
  unfold insertIfAbsent at h
  split at h
  · exact Or.inl h
  · rcases List.mem_append.mp h with h1 | h1
    · exact Or.inl h1
    · simp at h1
      exact Or.inr h1

/-- Every link `extractLinks` returns is `http:`/`https:`, has its fragment
stripped, and — under `sameOriginOnly` — the page's origin. -/
lemma extractLinks_mem (doc : PageDoc) (pageUrl : Url) (soo : Bool) :
    ∀ l ∈ extractLinks doc pageUrl soo,
      (l.protocol = jstr "http:" ∨ l.protocol = jstr "https:") ∧ l.hash = [] ∧
      (soo = true → urlOrigin l = urlOrigin pageUrl) := by
  unfold extractLinks
  suffices h : ∀ (anchors : List (Option Url)) (acc : List Url),
      (∀ l ∈ acc, (l.protocol = jstr "http:" ∨ l.protocol = jstr "https:") ∧ l.hash = [] ∧
        (soo = true → urlOrigin l = urlOrigin pageUrl)) →
      ∀ l ∈ anchors.foldl
        (fun acc o =>
          match o with
          | none => acc
          | some parsed =>
            if ¬ (parsed.protocol = jstr "http:" ∨ parsed.protocol = jstr "https:") then acc
            else if soo ∧ urlOrigin parsed ≠ urlOrigin pageUrl then acc
            else insertIfAbsent acc { parsed with hash := [] }) acc,
        (l.protocol = jstr "http:" ∨ l.protocol = jstr "https:") ∧ l.hash = [] ∧
        (soo = true → urlOrigin l = urlOrigin pageUrl) by
    intro l hl
    exact h doc.anchorHrefs [] (by simp) l hl
  intro anchors
  induction anchors with
  | nil => intro acc hacc l hl; exact hacc l hl
  | cons o rest ih =>
    intro acc hacc l hl
    simp only [List.foldl_cons] at hl
    refine ih _ ?_ l hl
    cases o with
    | none => exact hacc
    | some parsed =>
      dsimp only
      by_cases h1 : ¬ (parsed.protocol = jstr "http:" ∨ parsed.protocol = jstr "https:")
      · rw [if_pos h1]; exact hacc
      · rw [if_neg h1]
        by_cases h2 : soo ∧ urlOrigin parsed ≠ urlOrigin pageUrl
        · rw [if_pos h2]; exact hacc
        · rw [if_neg h2]
          intro x hx
          rcases mem_insertIfAbsent hx with hm | hm
          · exact hacc x hm
          · subst hm
            push_neg at h1
            refine ⟨h1, rfl, ?_⟩
            intro hsoo
            by_contra hne
            exact h2 ⟨hsoo, hne⟩

/-- One-step unfolding of `crawlLoop` on a nonempty queue with fuel. -/
lemma crawlLoop_step (env : SiteEnv) (maxDepth : Nat) (soo : Bool) (fuel : Nat)
    (current : Url × Nat) (rest : List (Url × Nat)) (acc : CrawlAcc) :
    crawlLoop env maxDepth soo (fuel + 1) (current :: rest) acc =
      if current.1 ∈ acc.visitedPages ∨ maxDepth < current.2 then
        crawlLoop env maxDepth soo fuel rest acc
      else
        let acc1 : CrawlAcc := { acc with
          visitedPages := acc.visitedPages ++ [current.1]
          visits := acc.visits ++ [current] }
        match fetchHtml env current.1 with
        | none => crawlLoop env maxDepth soo fuel rest acc1
        | some none => crawlLoop env maxDepth soo fuel rest acc1
        | some (some doc) =>
          let acc2 : CrawlAcc := { acc1 with
            pagesVisited := acc1.pagesVisited + 1
            discoveredImages := acc1.discoveredImages ++ extractImageUrls doc }
          if current.2 < maxDepth then
            let links := extractLinks doc current.1 soo
            let fresh := (links.filter (fun l => l ∉ acc2.visitedPages)).map
              (fun l => (l, current.2 + 1))
            crawlLoop env maxDepth soo fuel (rest ++ fresh)
              { acc2 with enqueued := acc2.enqueued ++ fresh }
          else
            crawlLoop env maxDepth soo fuel rest acc2 := rfl

/-- Invariant of the breadth-first loop: provided every queued URL has the
seed's origin (needed only under `sameOriginOnly`), every visit stays within
`maxDepth` and every frontier push is an `http(s)`, fragment-free link with
the seed's origin. -/
lemma crawlLoop_inv (env : SiteEnv) (maxDepth : Nat) (soo : Bool) (seedOrigin : JStr) :
    ∀ (fuel : Nat) (queue : List (Url × Nat)) (acc : CrawlAcc),
    (soo = true → ∀ p ∈ queue, urlOrigin p.1 = seedOrigin) →
    (∀ p ∈ acc.visits, p.2 ≤ maxDepth) →
    (soo = true → ∀ p ∈ acc.enqueued, urlOrigin p.1 = seedOrigin) →
    (∀ p ∈ acc.enqueued,
      (p.1.protocol = jstr "http:" ∨ p.1.protocol = jstr "https:") ∧ p.1.hash = []) →
    (∀ p ∈ (crawlLoop env maxDepth soo fuel queue acc).visits, p.2 ≤ maxDepth) ∧
    (soo = true → ∀ p ∈ (crawlLoop env maxDepth soo fuel queue acc).enqueued,
      urlOrigin p.1 = seedOrigin) ∧
    (∀ p ∈ (crawlLoop env maxDepth soo fuel queue acc).enqueued,
      (p.1.protocol = jstr "http:" ∨ p.1.protocol = jstr "https:") ∧ p.1.hash = []) := by
  intro fuel
  induction fuel with
  | zero =>
    intro queue acc hq hv he1 he2
    exact ⟨hv, he1, he2⟩
  | succ fuel ih =>
    intro queue acc hq hv he1 he2
    cases queue with
    | nil => exact ⟨hv, he1, he2⟩
    | cons current rest =>
      have hqrest : soo = true → ∀ p ∈ rest, urlOrigin p.1 = seedOrigin :=
        fun hs p hp => hq hs p (List.mem_cons_of_mem _ hp)
      rw [crawlLoop_step]
      by_cases hskip : current.1 ∈ acc.visitedPages ∨ maxDepth < current.2
      · rw [if_pos hskip]
        exact ih rest acc hqrest hv he1 he2
      · have hdep : current.2 ≤ maxDepth := Nat.le_of_not_lt (not_or.mp hskip).2
        have hv1 : ∀ p ∈ acc.visits ++ [current], p.2 ≤ maxDepth := by
          intro p hp
          rcases List.mem_append.mp hp with h | h
          · exact hv p h
          · simp at h
            subst h
            exact hdep
        rw [if_neg hskip]
        cases hf : fetchHtml env current.1 with
        | none =>
          dsimp only
          exact ih rest _ hqrest hv1 he1 he2
        | some o =>
          cases o with
          | none =>
            dsimp only
            exact ih rest _ hqrest hv1 he1 he2
          | some doc =>
            dsimp only
            by_cases hd : current.2 < maxDepth
            · rw [if_pos hd]
              have hcur : soo = true → urlOrigin current.1 = seedOrigin :=
                fun hs => hq hs current (List.mem_cons_self _ _)
              have hlinks := extractLinks_mem doc current.1 soo
              apply ih
              · intro hs p hp
                rcases List.mem_append.mp hp with h | h
                · exact hqrest hs p h
                · obtain ⟨l, hl, heq⟩ := List.mem_map.mp h
                  have := (hlinks l (List.mem_filter.mp hl).1).2.2 hs
                  rw [← heq] at *
                  simp only at *
                  rw [this, hcur hs]
              · exact hv1
              · intro hs p hp
                rcases List.mem_append.mp hp with h | h
                · exact he1 hs p h
                · obtain ⟨l, hl, heq⟩ := List.mem_map.mp h
                  have := (hlinks l (List.mem_filter.mp hl).1).2.2 hs
                  rw [← heq] at *
                  simp only at *
                  rw [this, hcur hs]
              · intro p hp
                rcases List.mem_append.mp hp with h | h
                · exact he2 p h
                · obtain ⟨l, hl, heq⟩ := List.mem_map.mp h
                  have hl' := hlinks l (List.mem_filter.mp hl).1
                  rw [← heq]
                  exact ⟨hl'.1, hl'.2.1⟩
            · rw [if_neg hd]
              exact ih rest _ hqrest hv1 he1 he2

/-- **C3.**  In the breadth-first site crawl no page is ever visited at a
depth beyond `maxDepth`, and every link pushed onto the frontier is an
`http:`/`https:` URL with its fragment stripped — and, when
`sameOriginOnly` is on, with the same origin as the seed. -/
theorem siteCrawl_depth_bound_and_enqueued_links (env : SiteEnv) (startUrl : Url)
    (maxDepth : Nat) (sameOriginOnly : Bool) (fuel : Nat) :
    (∀ p ∈ (siteCrawl env startUrl maxDepth sameOriginOnly fuel).visits,
      p.2 ≤ maxDepth) ∧
    (sameOriginOnly = true →
      ∀ p ∈ (siteCrawl env startUrl maxDepth sameOriginOnly fuel).enqueued,
        urlOrigin p.1 = urlOrigin startUrl) ∧
    (∀ p ∈ (siteCrawl env startUrl maxDepth sameOriginOnly fuel).enqueued,
      (p.1.protocol = jstr "http:" ∨ p.1.protocol = jstr "https:") ∧ p.1.hash = []) := by
  apply crawlLoop_inv env maxDepth sameOriginOnly (urlOrigin startUrl) fuel
    [(startUrl, 0)] emptyCrawlAcc
  · intro _ p hp
    simp at hp
    rw [hp]
  · intro p hp
    simp [emptyCrawlAcc] at hp
  · intro _ p hp
    simp [emptyCrawlAcc] at hp
  · intro p hp
    simp [emptyCrawlAcc] at hp

/-! ## Properties of the scroll collector -/

lemma jsIncludes_iff_contains (s sub : JStr) : jsIncludes s sub = true ↔ sub <:+: s := by
  unfold jsIncludes
  rw [List.any_eq_true]
  constructor
  · rintro ⟨t, ht, hp⟩
    exact List.infix_iff_prefix_suffix.mpr
      ⟨t, List.isPrefixOf_iff_prefix.mp hp, (List.mem_tails _ _).mp ht⟩
  · intro h
    obtain ⟨t, hp, hs⟩ := List.infix_iff_prefix_suffix.mp h
    exact ⟨t, (List.mem_tails _ _).mpr hs, List.isPrefixOf_iff_prefix.mpr hp⟩

/-- Lowercasing preserves containment of the all-lowercase word `sponsored`. -/
lemma jsIncludes_sponsored_toLower (t : JStr)
    (h : jsIncludes t (jstr "sponsored") = true) :
    jsIncludes (jsToLower t) (jstr "sponsored") = true := by
  rw [jsIncludes_iff_contains] at h ⊢
  have := List.IsInfix.map Char.toLower h
  simpa using this

/-- An element whose (lowercased) container text mentions `sponsored` is
classified as an ad by the in-page script. -/
lemma evalElem_ad_of_sponsored_lower (img : ImgElement)
    (h : jsIncludes (jsToLower img.containerText) (jstr "sponsored") = true) :
    evalElem img = ElemRes.ad := by
  unfold evalElem
  have hany : adKeywords.any (fun k => jsIncludes (jsToLower img.containerText) k) = true := by
    rw [List.any_eq_true]
    exact ⟨jstr "sponsored", by decide, h⟩
  rw [if_pos hany]

lemma insertIfAbsent_length_le {α : Type} [DecidableEq α] (l : List α) (a : α) :
    (insertIfAbsent l a).length ≤ l.length + 1 := by
  unfold insertIfAbsent
  split <;> simp

lemma addBatch_length_le (parse : JStr → Option Url) (maxI : Nat) :
    ∀ (urls : List JStr) (found : List JStr), found.length < maxI →
      (addBatch parse maxI found urls).length ≤ maxI := by
  intro urls
  induction urls with
  | nil =>
    intro found h
    unfold addBatch
    omega
  | cons raw rest ih =>
    intro found h
    unfold addBatch
    cases hn : normalizePinterestImageUrl parse raw with
    | none => exact ih found h
    | some n =>
      dsimp only
      have hlen := insertIfAbsent_length_le found n
      by_cases hge : maxI ≤ (insertIfAbsent found n).length
      · rw [if_pos hge]
        omega
      · rw [if_neg hge]
        exact ih _ (Nat.lt_of_not_le hge)

lemma addBatch_mem (parse : JStr → Option Url) (maxI : Nat) :
    ∀ (urls : List JStr) (found : List JStr) (u : JStr),
      u ∈ addBatch parse maxI found urls →
      u ∈ found ∨ ∃ raw ∈ urls, normalizePinterestImageUrl parse raw = some u := by
  intro urls
  induction urls with
  | nil =>
    intro found u hu
    exact Or.inl hu
  | cons raw rest ih =>
    intro found u hu
    unfold addBatch at hu
    cases hn : normalizePinterestImageUrl parse raw with
    | none =>
      rw [hn] at hu
      rcases ih found u hu with h | ⟨r, hr, he⟩
      · exact Or.inl h
      · exact Or.inr ⟨r, List.mem_cons_of_mem _ hr, he⟩
    | some n =>
      rw [hn] at hu
      dsimp only at hu
      by_cases hge : maxI ≤ (insertIfAbsent found n).length
      · rw [if_pos hge] at hu
        rcases mem_insertIfAbsent hu with h | h
        · exact Or.inl h
        · exact Or.inr ⟨raw, List.mem_cons_self _ _, by rw [hn, h]⟩
      · rw [if_neg hge] at hu
        rcases ih _ u hu with h | ⟨r, hr, he⟩
        · rcases mem_insertIfAbsent h with h1 | h1
          · exact Or.inl h1
          · exact Or.inr ⟨raw, List.mem_cons_self _ _, by rw [hn, h1]⟩
        · exact Or.inr ⟨r, List.mem_cons_of_mem _ hr, he⟩

lemma collectLoop_inv (env : CollectEnv) (maxI maxS : Nat) :
    ∀ (fuel scroll : Nat) (found : List JStr) (ads : Nat),
      found.length ≤ maxI → scroll ≤ maxS →
      (∀ u ∈ found, CollectedFrom env u) →
      (collectLoop env maxI maxS fuel scroll found ads).imageUrls.length ≤ maxI ∧
      (collectLoop env maxI maxS fuel scroll found ads).scrolls ≤ maxS ∧
      (∀ u ∈ (collectLoop env maxI maxS fuel scroll found ads).imageUrls,
        CollectedFrom env u) := by
  intro fuel
  induction fuel with
  | zero =>
    intro scroll found ads h1 h2 h3
    exact ⟨h1, h2, h3⟩
  | succ fuel ih =>
    intro scroll found ads h1 h2 h3
    unfold collectLoop
    by_cases hg : scroll < maxS ∧ found.length < maxI
    · rw [if_pos hg]
      apply ih
      · exact addBatch_length_le env.parseUrl maxI _ found hg.2
      · omega
      · intro u hu
        rcases addBatch_mem env.parseUrl maxI _ found u hu with h | ⟨raw, hraw, hnorm⟩
        · exact h3 u h
        · obtain ⟨img, himg, hev⟩ := List.mem_filterMap.mp hraw
          refine ⟨scroll, img, raw, himg, ?_, hnorm⟩
          cases he : evalElem img <;> rw [he] at hev <;> simp at hev
          rw [hev]
    · rw [if_neg hg]
      exact ⟨h1, h2, h3⟩

/-- **C4.**  The scroll collector's deduplicated URL set never exceeds
`maxImages`, the loop performs at most `maxScrolls` passes, every collected
URL originates from a rendered element the in-page script accepted — and an
element whose container text contains `sponsored` is always classified as an
ad and so never contributes — and in the concrete scenario with
`maxImages = 5` and 10 fresh images rendered per pass, collection halts
after exactly 1 pass with 5 distinct normalized URLs. -/
theorem collectPinterest_bounds_sponsored_scenario :
    (∀ (env : CollectEnv) (maxImages maxScrolls : Nat),
      (collectPinterestImageUrls env maxImages maxScrolls).imageUrls.length ≤ maxImages ∧
      (collectPinterestImageUrls env maxImages maxScrolls).scrolls ≤ maxScrolls ∧
      (∀ u ∈ (collectPinterestImageUrls env maxImages maxScrolls).imageUrls,
        ∃ k img raw, img ∈ env.render k ∧ evalElem img = ElemRes.url raw ∧
          jsIncludes (jsToLower img.containerText) (jstr "sponsored") = false ∧
          normalizePinterestImageUrl env.parseUrl raw = some u)) ∧
    (∀ img : ImgElement, jsIncludes img.containerText (jstr "sponsored") = true →
      evalElem img = ElemRes.ad) ∧
    ((collectPinterestImageUrls scenarioCollectEnv 5 10).scrolls = 1 ∧
      (collectPinterestImageUrls scenarioCollectEnv 5 10).imageUrls.length = 5 ∧
      (collectPinterestImageUrls scenarioCollectEnv 5 10).imageUrls.Nodup) := by
  refine ⟨?_, ?_, ?_⟩
  · intro env maxImages maxScrolls
    obtain ⟨h1, h2, h3⟩ := collectLoop_inv env maxImages maxScrolls maxScrolls 0 [] 0
      (by simp) (Nat.zero_le _) (by intro u hu; simp at hu)
    refine ⟨h1, h2, ?_⟩
    intro u hu
    obtain ⟨k, img, raw, himg, hev, hnorm⟩ := h3 u hu
    refine ⟨k, img, raw, himg, hev, ?_, hnorm⟩
    by_contra hinc
    rw [Bool.not_eq_false] at hinc
    rw [evalElem_ad_of_sponsored_lower img hinc] at hev
    exact ElemRes.noConfusion hev
  · intro img h
    exact evalElem_ad_of_sponsored_lower img (jsIncludes_sponsored_toLower _ h)
  · refine ⟨by decide, by decide, by decide⟩

/-! ## Properties of the progress estimator -/

/-- **C6.**  Whenever the estimator reports a target it is positive and the
percentage is `min(100, round(100 * processed / target))`; with no target
the percentage is null.  On the concrete record with 3 `IMG saved` lines,
1 `IMG skipped_small` line, no failure-kind lines and a declared target of
8, it reports `processed = 4` and `percent = 50`. -/
theorem buildProgress_percent_formula_and_scenario :
    (∀ (dateParse : JStr → Option Int) (st : ProgJobView) (lines : List JStr)
        (now : Int) (p : ProgressOut),
      buildProgress dateParse st lines now = some p →
      (∀ t, p.target = some t →
        0 < t ∧ p.percent = some (min 100 (jsRoundDiv (100 * (p.processed : Int)) t))) ∧
      (p.target = none → p.percent = none)) ∧
    buildProgress scenarioDateParse scenarioProgState scenarioActivity 1700000000900 =
      some { mode := jstr "pinterest", processed := 4, saved := 3, skipped := 1,
             failed := 0, collected := 0, target := some 8, percent := some 50,
             elapsedSec := some 1, etaSec := some 1 } := by
  constructor
  · intro dateParse st lines now p hp
    unfold buildProgress at hp
    by_cases habs : st.startedAt = JTime.absent
    · rw [if_pos habs] at hp
      exact absurd hp (by simp)
    · rw [if_neg habs] at hp
      dsimp only at hp
      set target : Int := (if (if st.payloadMode = [] then jstr "site" else st.payloadMode) =
          jstr "pinterest" then _ else 0) with htarget
      rw [Option.some.inj hp.symm]
      dsimp only
      by_cases h0 : 0 < target
      · rw [if_pos h0, if_pos h0]
        constructor
        · intro t ht
          cases Option.some.inj ht
          exact ⟨h0, rfl⟩
        · intro ht
          exact absurd ht (by simp)
      · rw [if_neg h0, if_neg h0]
        exact ⟨fun t ht => absurd ht (by simp), fun _ => rfl⟩
  · decide

lemma progressStep_collectedTotal (saMs : Option Int) (acc : LogCounts) (pl : LogLine)
    (h : lineSkipped saMs pl = false) :
    (progressStep saMs acc pl).collectedTotal =
      max acc.collectedTotal ((matchTotal pl.message).getD 0) := by
  unfold progressStep
  rw [if_neg (by simp [h])]
  dsimp only
  cases matchTotal pl.message <;> cases matchScroll pl.message <;> split_ifs <;> simp

lemma progressStep_collected (saMs : Option Int) (acc : LogCounts) (pl : LogLine)
    (h : lineSkipped saMs pl = false) :
    (progressStep saMs acc pl).collected =
      max acc.collected ((matchScroll pl.message).getD 0) := by
  unfold progressStep
  rw [if_neg (by simp [h])]
  dsimp only
  cases matchTotal pl.message <;> cases matchScroll pl.message <;> split_ifs <;> simp

lemma foldr_max_filterMap_cons {α : Type} (f : α → Option Nat) (l : α) (rest : List α) :
    (((l :: rest).filterMap f).foldr max 0) =
      max ((f l).getD 0) ((rest.filterMap f).foldr max 0) := by
  cases h : f l <;> simp [List.filterMap_cons, h]

lemma progress_fold_counts (dateParse : JStr → Option Int) (saMs : Option Int) :
    ∀ (lines : List JStr) (acc : LogCounts),
      (lines.foldl (fun a l => progressStep saMs a (parseLogLine dateParse l))
          acc).collectedTotal =
        max acc.collectedTotal
          (((lines.filter (fun l => !lineSkipped saMs (parseLogLine dateParse l))).filterMap
            (fun l => matchTotal (parseLogLine dateParse l).message)).foldr max 0) ∧
      (lines.foldl (fun a l => progressStep saMs a (parseLogLine dateParse l))
          acc).collected =
        max acc.collected
          (((lines.filter (fun l => !lineSkipped saMs (parseLogLine dateParse l))).filterMap
            (fun l => matchScroll (parseLogLine dateParse l).message)).foldr max 0) := by
  intro lines
  induction lines with
  | nil =>
    intro acc
    simp
  | cons l rest ih =>
    intro acc
    simp only [List.foldl_cons, List.filter_cons]
    by_cases hsk : lineSkipped saMs (parseLogLine dateParse l) = true
    · have hstep : progressStep saMs acc (parseLogLine dateParse l) = acc := by
        unfold progressStep
        rw [if_pos hsk]
      rw [hstep, hsk]
      simpa using ih acc
    · rw [Bool.not_eq_true] at hsk
      rw [hsk]
      simp only [Bool.not_false, if_pos]
      obtain ⟨ihT, ihC⟩ := ih (progressStep saMs acc (parseLogLine dateParse l))
      have hT := progressStep_collectedTotal saMs acc (parseLogLine dateParse l) hsk
      have hC := progressStep_collected saMs acc (parseLogLine dateParse l) hsk
      constructor
      · rw [ihT, hT, foldr_max_filterMap_cons]
        omega
      · rw [ihC, hC, foldr_max_filterMap_cons]
        omega

/-- **C7 (counterexample).**  The estimator's target is not "the declared
maximum overridden by the most recent collection-total line": with totals
50 then 30 in scope it reports 50 (the maximum), while the most-recent
reading demands 30; and with no total line but a scroll line reporting 12
collected it reports 12, not the declared maximum 8. -/
theorem buildProgress_target_most_recent_counterexample :
    (buildProgress scenarioDateParse probeProgState probeTotalsLines 1700000000900).map
        ProgressOut.target = some (some 50) ∧
    specTargetMostRecent scenarioDateParse probeProgState probeTotalsLines = some 30 ∧
    (buildProgress scenarioDateParse probeProgState probeScrollLines 1700000000900).map
        ProgressOut.target = some (some 12) ∧
    specTargetMostRecent scenarioDateParse probeProgState probeScrollLines = some 8 ∧
    (50 : Int) ≠ 30 ∧ (12 : Int) ≠ 8 := by
  refine ⟨by decide, by decide, by decide, by decide, by decide, by decide⟩

/-- **C7 (amended).**  For the scroll-discovery mode the estimator's target
is the declared maximum image count, overridden by the largest in-scope
collection-total value when one appeared, and otherwise raised to the
largest in-scope scroll-progress value when that is positive; a
non-positive result is reported as no target.  For site-crawl mode the
target is left undefined and percent and ETA are reported as null. -/
theorem buildProgress_target_max_total_and_site_null :
    ∀ (dateParse : JStr → Option Int) (st : ProgJobView) (lines : List JStr)
        (now : Int) (p : ProgressOut),
      buildProgress dateParse st lines now = some p →
      ((if st.payloadMode = [] then jstr "site" else st.payloadMode) = jstr "pinterest" →
        p.target =
          (let ct := maxTotalInScope dateParse (startedAtMs st) lines
           let c := maxScrollInScope dateParse (startedAtMs st) lines
           let t : Int :=
             if 0 < ct then (ct : Int)
             else if 0 < c then max st.payloadMaxImages (c : Int)
             else st.payloadMaxImages
           if 0 < t then some t else none)) ∧
      ((if st.payloadMode = [] then jstr "site" else st.payloadMode) ≠ jstr "pinterest" →
        p.target = none ∧ p.percent = none ∧ p.etaSec = none) := by
  intro dateParse st lines now p hp
  unfold buildProgress at hp
  by_cases habs : st.startedAt = JTime.absent
  · rw [if_pos habs] at hp
    exact absurd hp (by simp)
  · rw [if_neg habs] at hp
    dsimp only at hp
    obtain ⟨hct, hc⟩ := progress_fold_counts dateParse
      (match st.startedAt with | .at s => some s | _ => none)
      (readTailLines lines 4000) ⟨0, 0, 0, 0, 0⟩
    rw [Option.some.inj hp.symm]
    dsimp only
    constructor
    · intro hmode
      rw [if_pos hmode, hct, hc]
      simp only [Nat.zero_max]
      rfl
    · intro hmode
      rw [if_neg hmode]
      norm_num
      intro _
      split <;> rfl

/-! ## Properties of the job runner -/

/-- **C8.**  While the job state has `running = true`, a start request is
answered with the already-running rejection carrying the current snapshot,
and the job state — every field of it — is returned unchanged. -/
theorem postCrawlStart_rejected_while_running (s : JobState) (p : CrawlPayload)
    (child : SpawnedChild) (execPath : JStr) (now : Int) (h : s.running = true) :
    postCrawlStart s p child execPath now = (s, StartResponse.rejected409 s) := by
  unfold postCrawlStart
  rw [if_pos h]

/-- **C9 (counterexample).**  A launch failure does not keep the job out of
`Running`: `startCrawler` sets `running = true` unconditionally right after
`spawn` returns, before any `error` event can fire, and the `error` handler
records the message without leaving `Running`. -/
theorem startCrawler_running_despite_launch_failure :
    (startCrawlerState probePayload probeFailedChild (jstr "node") 1700000000000).running
      = true ∧
    (onChildError
        (startCrawlerState probePayload probeFailedChild (jstr "node") 1700000000000)
        (jstr "spawn ENOENT")).running = true ∧
    (onChildError
        (startCrawlerState probePayload probeFailedChild (jstr "node") 1700000000000)
        (jstr "spawn ENOENT")).lastError = some (jstr "spawn ENOENT") := by
  refine ⟨rfl, rfl, rfl⟩

/-- **C9 (amended).**  Launching sets `running = true` unconditionally —
even when the spawn already failed (`pid` absent) — so a launch error is
recorded by the `error` handler in `lastError` with the state already in
`Running` and every other field untouched; the state leaves `Running` only
through the `close` handler, which records the end time and the exit
status. -/
theorem jobRunner_transitions (p : CrawlPayload) (child : SpawnedChild)
    (execPath : JStr) (now : Int) (s : JobState) (msg : JStr) (code : Option Int)
    (tEnd : Int) :
    (startCrawlerState p child execPath now).running = true ∧
    (startCrawlerState p child execPath now).pid = child.pid ∧
    (onChildError s msg).running = s.running ∧
    (onChildError s msg).lastError = some msg ∧
    (onChildError s msg).pid = s.pid ∧
    (onChildError s msg).startedAt = s.startedAt ∧
    (onChildError s msg).endedAt = s.endedAt ∧
    (onChildError s msg).exitCode = s.exitCode ∧
    (onChildClose s code tEnd).running = false ∧
    (onChildClose s code tEnd).endedAt = some tEnd ∧
    (onChildClose s code tEnd).exitCode = code ∧
    (onChildClose s code tEnd).pid = none := by
  refine ⟨rfl, rfl, rfl, rfl, rfl, rfl, rfl, rfl, rfl, rfl, rfl, rfl⟩

/-! ## Properties of the image delete operations -/

lemma jsBasename_no_slash (p : JStr) : '/' ∉ jsBasename p := by
  unfold jsBasename
  intro h
  rw [List.mem_reverse] at h
  have := List.mem_takeWhile_imp h
  simp at this

lemma safeImageName_none_of (r : JStr)
    (h : jsTrim r = [] ∨ jsTrim r = jstr "." ∨ jsTrim r = jstr ".." ∨
      jsBasename (jsTrim r) ≠ jsTrim r) :
    safeImageName (some r) = none := by
  unfold safeImageName
  dsimp only
  by_cases h0 : jsTrim r = []
  · rw [if_pos h0]
  · rw [if_neg h0]
    by_cases h1 : jsBasename (jsTrim r) = [] ∨ jsBasename (jsTrim r) = jstr "." ∨
        jsBasename (jsTrim r) = jstr ".."
    · rw [if_pos h1]
    · rw [if_neg h1]
      by_cases h2 : jsBasename (jsTrim r) ≠ jsTrim r
      · rw [if_pos h2]
      · push_neg at h2
        exfalso
        rcases h with h | h | h | h
        · exact h0 h
        · exact h1 (Or.inr (Or.inl (by rw [h2, h])))
        · exact h1 (Or.inr (Or.inr (by rw [h2, h])))
        · exact h h2

lemma safeImageName_some_props (r n : JStr) (h : safeImageName (some r) = some n) :
    n = jsTrim r ∧ n ≠ [] ∧ n ≠ jstr "." ∧ n ≠ jstr ".." ∧ '/' ∉ n := by
  unfold safeImageName at h
  dsimp only at h
  by_cases h0 : jsTrim r = []
  · rw [if_pos h0] at h
    exact absurd h (by simp)
  · rw [if_neg h0] at h
    by_cases h1 : jsBasename (jsTrim r) = [] ∨ jsBasename (jsTrim r) = jstr "." ∨
        jsBasename (jsTrim r) = jstr ".."
    · rw [if_pos h1] at h
      exact absurd h (by simp)
    · rw [if_neg h1] at h
      by_cases h2 : jsBasename (jsTrim r) ≠ jsTrim r
      · rw [if_pos h2] at h
        exact absurd h (by simp)
      · rw [if_neg h2] at h
        push_neg at h1 h2
        cases Option.some.inj h
        exact ⟨h2, h1.1 , h1.2.1, h1.2.2, jsBasename_no_slash _⟩

lemma deleteImageByName_attempt (fsUnlink : JStr → UnlinkOutcome) (imagesDir : JStr)
    (raw : Option JStr) (pth : JStr)
    (h : (deleteImageByName fsUnlink imagesDir raw).2 = some pth) :
    ∃ n, pth = joinPath imagesDir n ∧ n ≠ [] ∧ n ≠ jstr "." ∧ n ≠ jstr ".." ∧
      '/' ∉ n := by
  unfold deleteImageByName at h
  cases hs : safeImageName raw with
  | none =>
    rw [hs] at h
    exact absurd h (by simp)
  | some n =>
    rw [hs] at h
    dsimp only at h
    cases raw with
    | none => exact absurd hs (by simp [safeImageName])
    | some r =>
      obtain ⟨_, hne, hdot, hdots, hslash⟩ := safeImageName_some_props r n hs
      refine ⟨n, ?_, hne, hdot, hdots, hslash⟩
      cases hu : fsUnlink (joinPath imagesDir n) <;> rw [hu] at h <;>
        exact (Option.some.inj h).symm

/-- **C10.**  A delete request whose trimmed name is not exactly a plain
file basename — empty, `.`, `..`, or different from its own basename (for
instance because it carries a directory prefix) — is answered not-ok and
`fs.unlink` is never invoked; and every path either delete operation
(single or batch) ever hands to `fs.unlink` is the images directory joined
with a separator-free, non-dot plain name, never a path outside that
directory. -/
theorem deleteImage_rejects_non_basenames_and_stays_inside (fsUnlink : JStr → UnlinkOutcome)
    (imagesDir : JStr) :
    (∀ r : JStr,
      (jsTrim r = [] ∨ jsTrim r = jstr "." ∨ jsTrim r = jstr ".." ∨
        jsBasename (jsTrim r) ≠ jsTrim r) →
      (deleteImageByName fsUnlink imagesDir (some r)).1.ok = false ∧
      (deleteImageByName fsUnlink imagesDir (some r)).2 = none) ∧
    (∀ (raw : Option JStr) (pth : JStr),
      (deleteImageByName fsUnlink imagesDir raw).2 = some pth →
      ∃ n, pth = joinPath imagesDir n ∧ n ≠ [] ∧ n ≠ jstr "." ∧ n ≠ jstr ".." ∧
        '/' ∉ n) ∧
    (∀ (names : List JStr) (results : List (DeleteRes × Option JStr))
        (pr : DeleteRes × Option JStr) (pth : JStr),
      deleteBatch fsUnlink imagesDir names = some results → pr ∈ results →
      pr.2 = some pth →
      ∃ n, pth = joinPath imagesDir n ∧ n ≠ [] ∧ n ≠ jstr "." ∧ n ≠ jstr ".." ∧
        '/' ∉ n) := by
  refine ⟨?_, ?_, ?_⟩
  · intro r hcond
    unfold deleteImageByName
    rw [safeImageName_none_of r hcond]
    exact ⟨rfl, rfl⟩
  · exact deleteImageByName_attempt fsUnlink imagesDir
  · intro names results pr pth hb hpr hpth
    unfold deleteBatch at hb
    by_cases h0 : names = []
    · rw [if_pos h0] at hb
      exact absurd hb (by simp)
    · rw [if_neg h0] at hb
      dsimp only at hb
      by_cases h1 : jsSetDedup ((names.map jsTrim).filter (· ≠ [])) = []
      · rw [if_pos h1] at hb
        exact absurd hb (by simp)
      · rw [if_neg h1] at hb
        rw [← Option.some.inj hb] at hpr
        obtain ⟨n, _, heq⟩ := List.mem_map.mp hpr
        rw [← heq] at hpth
        exact deleteImageByName_attempt fsUnlink imagesDir (some n) pth hpth

/-! ## Witness instantiations -/

theorem downloadImages_unique_once_and_counter_sum_witness :
    (downloadImages wEnv (jstr "out") [jstr "http://h/b.png", jstr "http://h/s.png",
        jstr "http://h/b.png"] 200 75).seen.Nodup ∧
    (downloadImages wEnv (jstr "out") [jstr "http://h/b.png", jstr "http://h/s.png",
        jstr "http://h/b.png"] 200 75).seen.toFinset =
      [jstr "http://h/b.png", jstr "http://h/s.png", jstr "http://h/b.png"].toFinset ∧
    (∀ st u, u ∈ st.seen → dlStep wEnv (jstr "out") 200 75 st u = st) ∧
    (downloadImages wEnv (jstr "out") [jstr "http://h/b.png", jstr "http://h/s.png",
        jstr "http://h/b.png"] 200 75).stats.imagesSaved +
      (downloadImages wEnv (jstr "out") [jstr "http://h/b.png", jstr "http://h/s.png",
        jstr "http://h/b.png"] 200 75).stats.imagesSkippedSmall +
      (downloadImages wEnv (jstr "out") [jstr "http://h/b.png", jstr "http://h/s.png",
        jstr "http://h/b.png"] 200 75).stats.imagesFailed =
      [jstr "http://h/b.png", jstr "http://h/s.png", jstr "http://h/b.png"].toFinset.card :=
  downloadImages_unique_once_and_counter_sum wEnv (jstr "out")
    [jstr "http://h/b.png", jstr "http://h/s.png", jstr "http://h/b.png"] 200 75

theorem downloadImages_small_skipped_never_written_witness :
    processOne wEnv (jstr "out") 200 75 (jstr "http://h/s.png") =
      ⟨.skippedSmall, 0, 0, 0, []⟩ ∧
    ∀ e ∈ (downloadImages wEnv (jstr "out")
        [jstr "http://h/s.png", jstr "http://h/b.png"] 200 75).writes,
      e.url ≠ jstr "http://h/s.png" :=
  downloadImages_small_skipped_never_written wEnv (jstr "out")
    [jstr "http://h/s.png", jstr "http://h/b.png"] 200 75 (jstr "http://h/s.png")
    (jsToLower (jstr "image/png")) [1, 2, 3] ⟨50, 40, some (jstr "png")⟩
    (by decide) (by decide) (by decide)

theorem siteCrawl_depth_bound_and_enqueued_links_witness :
    (∀ p ∈ (siteCrawl wSiteEnv wSeed 1 true 5).visits, p.2 ≤ 1) ∧
    (∀ p ∈ (siteCrawl wSiteEnv wSeed 1 true 5).enqueued,
      urlOrigin p.1 = urlOrigin wSeed) ∧
    (∀ p ∈ (siteCrawl wSiteEnv wSeed 1 true 5).enqueued,
      (p.1.protocol = jstr "http:" ∨ p.1.protocol = jstr "https:") ∧ p.1.hash = []) ∧
    (siteCrawl wSiteEnv wSeed 1 true 5).enqueued =
      [(⟨jstr "https:", jstr "s.example", jstr "/p2", [], []⟩, 1)] :=
  ⟨(siteCrawl_depth_bound_and_enqueued_links wSiteEnv wSeed 1 true 5).1,
   (siteCrawl_depth_bound_and_enqueued_links wSiteEnv wSeed 1 true 5).2.1 rfl,
   (siteCrawl_depth_bound_and_enqueued_links wSiteEnv wSeed 1 true 5).2.2,
   by decide⟩

theorem collectPinterest_bounds_sponsored_scenario_witness :
    ((collectPinterestImageUrls scenarioCollectEnv 5 10).imageUrls.length ≤ 5 ∧
      (collectPinterestImageUrls scenarioCollectEnv 5 10).scrolls ≤ 10 ∧
      (∀ u ∈ (collectPinterestImageUrls scenarioCollectEnv 5 10).imageUrls,
        ∃ k img raw, img ∈ scenarioCollectEnv.render k ∧ evalElem img = ElemRes.url raw ∧
          jsIncludes (jsToLower img.containerText) (jstr "sponsored") = false ∧
          normalizePinterestImageUrl scenarioCollectEnv.parseUrl raw = some u)) ∧
    jsIncludes wSponsImg.containerText (jstr "sponsored") = true ∧
    evalElem wSponsImg = ElemRes.ad :=
  ⟨collectPinterest_bounds_sponsored_scenario.1 scenarioCollectEnv 5 10,
   by decide,
   collectPinterest_bounds_sponsored_scenario.2.1 wSponsImg (by decide)⟩

theorem filenameFromUrl_shape_and_determinism_witness :
    (∃ safeBase ext,
      filenameFromUrl wEnv.sha1hex ⟨jstr "http:", jstr "h", jstr "/b.png", [], []⟩
          (some (jstr "png")) (jstr "image/png") 800 600 =
        (wEnv.sha1hex (urlHref ⟨jstr "http:", jstr "h", jstr "/b.png", [], []⟩)).take 10
          ++ jstr "-" ++ (natChars 800 ++ jstr "x" ++ natChars 600) ++ jstr "-" ++
          safeBase ++ ext ∧
      safeBase ≠ [] ∧ safeBase.length ≤ 180 ∧
      (∀ c ∈ safeBase, isSafeFilenameChar c) ∧
      ((ext = extensionFromImageType (some (jstr "png")) ∧
          extensionFromImageType (some (jstr "png")) ≠ []) ∨
        (extensionFromImageType (some (jstr "png")) = [] ∧
          ext = extensionFromContentType (jstr "image/png") ∧
          extensionFromContentType (jstr "image/png") ≠ []) ∨
        (extensionFromImageType (some (jstr "png")) = [] ∧
          extensionFromContentType (jstr "image/png") = [] ∧ ext = jstr ".img"))) ∧
    (⟨jstr "http://h/b.png", jstr "abcdefghij-800x600-b.png",
        jstr "out1/abcdefghij-800x600-b.png"⟩ : WriteEvent) ∈
      (downloadImages wEnv (jstr "out1") [jstr "http://h/b.png"] 200 75).writes ∧
    (⟨jstr "http://h/b.png", jstr "abcdefghij-800x600-b.png",
        jstr "out2/abcdefghij-800x600-b.png"⟩ : WriteEvent) ∈
      (downloadImages wEnv (jstr "out2") [jstr "http://h/s.png", jstr "http://h/b.png"]
        100 60).writes ∧
    (⟨jstr "http://h/b.png", jstr "abcdefghij-800x600-b.png",
        jstr "out1/abcdefghij-800x600-b.png"⟩ : WriteEvent).filename =
      (⟨jstr "http://h/b.png", jstr "abcdefghij-800x600-b.png",
        jstr "out2/abcdefghij-800x600-b.png"⟩ : WriteEvent).filename :=
  ⟨filenameFromUrl_shape_and_determinism.1 wEnv.sha1hex
      ⟨jstr "http:", jstr "h", jstr "/b.png", [], []⟩ (some (jstr "png"))
      (jstr "image/png") 800 600,
   by decide,
   by decide,
   filenameFromUrl_shape_and_determinism.2 wEnv (jstr "out1") (jstr "out2")
      [jstr "http://h/b.png"] [jstr "http://h/s.png", jstr "http://h/b.png"] 200 100 75 60
      ⟨jstr "http://h/b.png", jstr "abcdefghij-800x600-b.png",
        jstr "out1/abcdefghij-800x600-b.png"⟩
      ⟨jstr "http://h/b.png", jstr "abcdefghij-800x600-b.png",
        jstr "out2/abcdefghij-800x600-b.png"⟩
      (by decide) (by decide) rfl⟩

theorem buildProgress_percent_formula_and_scenario_witness :
    0 < (8 : Int) ∧
    ({ mode := jstr "pinterest", processed := 4, saved := 3, skipped := 1, failed := 0,
       collected := 0, target := some 8, percent := some 50, elapsedSec := some 1,
       etaSec := some 1 } : ProgressOut).percent =
      some (min 100 (jsRoundDiv (100 * ((4 : Nat) : Int)) 8)) :=
  (buildProgress_percent_formula_and_scenario.1 scenarioDateParse scenarioProgState
    scenarioActivity 1700000000900 _ buildProgress_percent_formula_and_scenario.2).1 8 rfl

theorem buildProgress_target_max_total_and_site_null_witness :
    (probePinterestOut.target =
      (let ct := maxTotalInScope scenarioDateParse (startedAtMs probeProgState)
        probeTotalsLines
       let c := maxScrollInScope scenarioDateParse (startedAtMs probeProgState)
        probeTotalsLines
       let t : Int :=
         if 0 < ct then (ct : Int)
         else if 0 < c then max probeProgState.payloadMaxImages (c : Int)
         else probeProgState.payloadMaxImages
       if 0 < t then some t else none)) ∧
    (probeSiteOut.target = none ∧ probeSiteOut.percent = none ∧
      probeSiteOut.etaSec = none) :=
  ⟨(buildProgress_target_max_total_and_site_null scenarioDateParse probeProgState
      probeTotalsLines 1700000000900 probePinterestOut (by decide)).1 (by decide),
   (buildProgress_target_max_total_and_site_null scenarioDateParse probeSiteState
      probeTotalsLines 1700000000900 probeSiteOut (by decide)).2 (by decide)⟩

theorem postCrawlStart_rejected_while_running_witness :
    probeRunningState.running = true ∧
    postCrawlStart probeRunningState probePayload probeFailedChild (jstr "node")
        1700000000005 =
      (probeRunningState, StartResponse.rejected409 probeRunningState) :=
  ⟨rfl, postCrawlStart_rejected_while_running probeRunningState probePayload
    probeFailedChild (jstr "node") 1700000000005 rfl⟩

theorem deleteImage_rejects_non_basenames_and_stays_inside_witness :
    (jsTrim (jstr "../a.png") = [] ∨ jsTrim (jstr "../a.png") = jstr "." ∨
      jsTrim (jstr "../a.png") = jstr ".." ∨
      jsBasename (jsTrim (jstr "../a.png")) ≠ jsTrim (jstr "../a.png")) ∧
    ((deleteImageByName wUnlink (jstr "data/site/images") (some (jstr "../a.png"))).1.ok
        = false ∧
      (deleteImageByName wUnlink (jstr "data/site/images")
        (some (jstr "../a.png"))).2 = none) :=
  ⟨by decide,
   (deleteImage_rejects_non_basenames_and_stays_inside wUnlink
      (jstr "data/site/images")).1 (jstr "../a.png") (by decide)⟩
